import Mathlib

/-!
# Verification of the statement-analyzer core pipeline

This file is a shallow embedding, in Lean 4, of the core transaction-analysis
pipeline of the repository (`src/components/StatementUploader.jsx`): key/value
normalization, column resolution, merchant-name canonicalization, category
classification, footer detection, CSV row truncation, spreadsheet header
discovery, the extended date canonicalizer, amount parsing, cross-file
deduplication and recurring-payment grouping.

Strings are modelled as `List Char` (`Str`).  The embedding models the ASCII
fragment of JavaScript string semantics: `toLowerCase`, `trim`, and the regex
character classes (`\s`, `\d`, `\w`) are given their ASCII meaning, which is
what the repository's data (bank-statement CSV text) exercises.  JavaScript
regular expressions used by the source are embedded through a small
backtracking regex engine (`RE` below) whose match-priority order follows the
JavaScript backtracking order (leftmost match, alternatives in source order,
greedy quantifiers), so that `String.prototype.replace` spans coincide with
the JavaScript ones.
-/

namespace StmtA

abbrev Str := List Char

/-- ASCII whitespace recognised by the embedding (the fragment of JS `\s` /
`trim` that ASCII data exercises). -/
def isSpaceChar (c : Char) : Bool :=
  c = ' ' || c = '\t' || c = '\n' || c = '\r' || c = '\x0b' || c = '\x0c'

/-- ASCII lower-casing, the fragment of JS `toLowerCase` on ASCII data. -/
def lowerChar (c : Char) : Char :=
  if 'A' ≤ c ∧ c ≤ 'Z' then Char.ofNat (c.toNat + 32) else c

/-- ASCII upper-casing, the fragment of JS `toUpperCase` on ASCII data. -/
def upperChar (c : Char) : Char :=
  if 'a' ≤ c ∧ c ≤ 'z' then Char.ofNat (c.toNat - 32) else c

def toLower (s : Str) : Str := s.map lowerChar

def trimLeft : Str → Str
  | [] => []
  | c :: t => if isSpaceChar c then trimLeft t else c :: t

def trimRight (s : Str) : Str := (trimLeft s.reverse).reverse

/-- JS `String.prototype.trim` (ASCII fragment). -/
def trim (s : Str) : Str := trimRight (trimLeft s)

/-- JS `a.startsWith b`. -/
def startsWith (s pre : Str) : Bool := pre.isPrefixOf s

/-- JS `a.includes b` (substring containment). -/
def includes (s sub : Str) : Bool :=
  (List.range (s.length + 1)).any (fun i => startsWith (s.drop i) sub)

/-- JS `\w` word-character class: `[A-Za-z0-9_]`. -/
def isWordChar (c : Char) : Bool :=
  ('a' ≤ c && c ≤ 'z') || ('A' ≤ c && c ≤ 'Z') || ('0' ≤ c && c ≤ '9') || c = '_'

/-- JS `\d` digit class: `[0-9]`. -/
def isDigitChar (c : Char) : Bool := '0' ≤ c && c ≤ '9'

end StmtA

namespace StmtA

/-!
## A small backtracking regex engine

`RE` is the abstract syntax of the JavaScript regular expressions appearing in
the source.  `reRun` enumerates the possible end positions of a match starting
at a given position, in JavaScript backtracking priority order: for `alt` the
left alternative's results come first, for `star` longer (greedy) matches come
first, and `cat` preserves the lexicographic priority of its parts.  `.test`
only needs match existence; `.replace` additionally uses the priority-first
end position, which is why the order is maintained.
-/

inductive RE : Type where
  | eps : RE
  | cls (p : Char → Bool) : RE
  | cat (a b : RE) : RE
  | alt (a b : RE) : RE
  | star (a : RE) : RE
  | bos : RE
  | eos : RE
  | wb  : RE
  | nla (a : RE) : RE

namespace RE

def size : RE → Nat
  | eps => 1
  | cls _ => 1
  | cat a b => size a + size b + 1
  | alt a b => size a + size b + 1
  | star a => size a + 1
  | bos => 1
  | eos => 1
  | wb => 1
  | nla a => size a + 1

end RE

/-- `\b` of JavaScript: a word/non-word boundary at position `i` of `full`. -/
def wordBoundaryAt (full : Str) (i : Nat) : Bool :=
  let before := match full.get? (i - 1) with
    | some c => if i = 0 then false else isWordChar c
    | none => false
  let here := match full.get? i with
    | some c => isWordChar c
    | none => false
  before != here

/-- End positions (priority-ordered) of matches of `r` at position `i` in
`full`.  `fuel` bounds the recursion; `reFuel` below always supplies enough
for the patterns and inputs in this development. -/
def reRun (full : Str) : Nat → RE → Nat → List Nat
  | 0, _, _ => []
  | _ + 1, .eps, i => [i]
  | _ + 1, .cls p, i =>
      match full.get? i with
      | some c => if p c then [i + 1] else []
      | none => []
  | fuel + 1, .cat a b, i => (reRun full fuel a i).flatMap (reRun full fuel b)
  | fuel + 1, .alt a b, i => reRun full fuel a i ++ reRun full fuel b i
  | fuel + 1, .star a, i =>
      ((reRun full fuel a i).filter (fun j => i < j)).flatMap
        (reRun full fuel (.star a)) ++ [i]
  | _ + 1, .bos, i => if i = 0 then [i] else []
  | _ + 1, .eos, i => if i = full.length then [i] else []
  | _ + 1, .wb, i => if wordBoundaryAt full i then [i] else []
  | fuel + 1, .nla a, i => if (reRun full fuel a i).isEmpty then [i] else []

/-- A generous fuel bound: each `star` unrolling consumes at least one input
character, so recursion depth is below `size * (length + 2)`. -/
def reFuel (r : RE) (full : Str) : Nat :=
  (r.size + 2) * (full.length + 2)

/-- JS `regex.test(s)`: does `r` match anywhere in `s`? -/
def reTest (r : RE) (s : Str) : Bool :=
  (List.range (s.length + 1)).any fun i => !(reRun s (reFuel r s) r i).isEmpty

/-- The span of the leftmost match of `r` in `s` (start, end), with the end
position chosen in JS backtracking priority order, if any match exists. -/
def reFirstMatch (r : RE) (s : Str) : Option (Nat × Nat) :=
  (List.range (s.length + 1)).findSome? fun i =>
    match (reRun s (reFuel r s) r i).head? with
    | some j => some (i, j)
    | none => none

/-- JS non-global `s.replace(r, repl)` with a constant replacement string. -/
def reReplaceFirst (r : RE) (repl : Str) (s : Str) : Str :=
  match reFirstMatch r s with
  | some (i, j) => s.take i ++ repl ++ s.drop j
  | none => s

/-- One scan step of global replace: from position `pos`, find the next match
at or after `pos` in the original string. -/
def reFindFrom (r : RE) (s : Str) (pos : Nat) : Option (Nat × Nat) :=
  ((List.range (s.length + 1 - pos)).map (· + pos)).findSome? fun i =>
    match (reRun s (reFuel r s) r i).head? with
    | some j => some (i, j)
    | none => none

/-- JS global `s.replace(r, repl)` (constant replacement): matches are found
left to right on the original string and never overlap; an empty match emits
the replacement and advances one character. -/
def reReplaceAllGo (r : RE) (repl : Str) (s : Str) : Nat → Nat → Str
  | _, 0 => []
  | pos, fuel + 1 =>
      match reFindFrom r s pos with
      | some (i, j) =>
          if j ≤ i then
            (s.drop pos).take (i - pos) ++ repl ++
              (match s.get? i with
               | some c => c :: reReplaceAllGo r repl s (i + 1) fuel
               | none => [])
          else
            (s.drop pos).take (i - pos) ++ repl ++ reReplaceAllGo r repl s j fuel
      | none => s.drop pos

def reReplaceAll (r : RE) (repl : Str) (s : Str) : Str :=
  reReplaceAllGo r repl s 0 (s.length + 1)

/-! ### Smart constructors mirroring the JS regex syntax -/

/-- A literal character of a case-insensitive (`/i`) pattern. -/
def chI (c : Char) : RE := .cls fun x => lowerChar x = lowerChar c

/-- A literal character of a case-sensitive pattern. -/
def chE (c : Char) : RE := .cls fun x => x = c

/-- A literal string of a case-insensitive pattern. -/
def strI (s : String) : RE := s.toList.foldr (fun c acc => .cat (chI c) acc) .eps

/-- A literal string of a case-sensitive pattern. -/
def strE (s : String) : RE := s.toList.foldr (fun c acc => .cat (chE c) acc) .eps

def reAlts (l : List RE) : RE := match l with
  | [] => .eps
  | r :: rest => rest.foldl .alt r

/-- Alternation of case-insensitive literal words, `(a|b|c)`. -/
def altsI (l : List String) : RE := reAlts (l.map strI)

def rePlus (r : RE) : RE := .cat r (.star r)
def reOpt (r : RE) : RE := .alt r .eps
/-- `r{n}` exactly. -/
def reRepN (r : RE) (n : Nat) : RE := (List.replicate n r).foldr .cat .eps
/-- `r{n,}`. -/
def reRepAtLeast (r : RE) (n : Nat) : RE := .cat (reRepN r n) (.star r)
/-- `r{n,m}` = `r{n}` then up to `m-n` optional greedy copies. -/
def reRepRange (r : RE) (n m : Nat) : RE :=
  .cat (reRepN r n) ((List.replicate (m - n) (reOpt r)).foldr .cat .eps)

def reWs : RE := .cls isSpaceChar
def reDigit : RE := .cls isDigitChar
def reWord : RE := .cls isWordChar
/-- JS `.` (matches anything except line terminators). -/
def reDot : RE := .cls fun c => c ≠ '\n' && c ≠ '\r'
def clsOf (l : List Char) : RE := .cls fun c => l.contains c
/-- Character class of a case-insensitive pattern. -/
def clsOfI (l : List Char) : RE := .cls fun c => l.map lowerChar |>.contains (lowerChar c)
def clsNot (l : List Char) : RE := .cls fun c => !l.contains c

end StmtA

namespace StmtA

def strL (s : String) : Str := s.toList

/-!
## Values and records

The pipeline carries rows as JavaScript objects whose values, in the CSV path
(`Papa.parse` with `header: true` produces strings) and after loading
(`__srcs` holds an array of file names, line 1378), are strings or arrays of
strings.  `JVal` models exactly that fragment; `Record` is an insertion-ordered
key-value object (later writes to an existing key keep its position, as JS
property order does).
-/

inductive JVal : Type where
  | vstr (s : Str)
  | varr (l : List Str)
deriving DecidableEq

def jvalTruthy : JVal → Bool
  | .vstr s => s ≠ []
  | .varr _ => true

/-- JS `v.toString()` on the modelled value fragment (arrays join with `,`). -/
def jvalToStr : JVal → Str
  | .vstr s => s
  | .varr l => List.intercalate (strL ",") l

abbrev Record := List (Str × JVal)

/-- JS object property write: overwrite in place if the key exists (keeping
its position), else append. -/
def objSet (l : Record) (k : Str) (v : JVal) : Record :=
  if l.any (fun kv => kv.1 = k) then
    l.map (fun kv => if kv.1 = k then (k, v) else kv)
  else l ++ [(k, v)]

/-- JS object property read (`norm[k]`); `none` models `undefined`. -/
def objGet (l : Record) (k : Str) : Option JVal :=
  (l.find? (fun kv => kv.1 = k)).map (·.2)

/-- `cleanString`: strip `*` and trim if a string, else pass through. -/
def cleanString : JVal → JVal
  | .vstr s => .vstr (trim (s.filter (fun c => c ≠ '*')))
  | .varr l => .varr l

/-- Scan for `s.replace(/\s+/g, ' ')`: the flag records whether the previous
character was inside a whitespace run (already replaced). -/
def collapseWsGo : Bool → Str → Str
  | _, [] => []
  | inRun, c :: t =>
    if isSpaceChar c then
      if inRun then collapseWsGo true t else ' ' :: collapseWsGo true t
    else c :: collapseWsGo false t

/-- JS `s.replace(/\s+/g, ' ')`: collapse every whitespace run to one space. -/
def collapseWs (s : Str) : Str := collapseWsGo false s

/-- `normalizeKey`: strip `*`, trim, lower-case, collapse whitespace runs. -/
def normalizeKey (k : Str) : Str :=
  collapseWs (toLower (trim (k.filter (fun c => c ≠ '*'))))

/-- `buildNorm`: re-key a record through `normalizeKey` and clean each value
(`Object.fromEntries` keeps the first occurrence's position and the last
occurrence's value on key collisions, like JS property assignment). -/
def buildNorm (tx : Record) : Record :=
  tx.foldl (fun acc kv => objSet acc (normalizeKey kv.1) (cleanString kv.2)) []

/-- `k.replace(/[.()]+$/, '').trim()`: the fallback key base in
`findColVal` (trailing `.`/`(`/`)` run stripped, then trimmed). -/
def keyBase (k : Str) : Str :=
  trim ((k.reverse.dropWhile (fun c => c = '.' || c = '(' || c = ')')).reverse)

/-- `findColVal`: exact key lookup in priority order, then prefix-match
fallback against the present keys. -/
def findColVal (norm : Record) (keys : List Str) : Option JVal :=
  match keys.findSome? (fun k => objGet norm k) with
  | some v => some v
  | none =>
      keys.findSome? fun k =>
        (norm.find? (fun kv => startsWith kv.1 (keyBase k))).map (·.2)

def debitKeys : List Str :=
  [strL "withdrawal amt.", strL "withdrawal", strL "debit amt.",
   strL "debit amount", strL "debit", strL "dr amt.", strL "dr",
   strL "amount", strL "amt"]

def creditKeys : List Str :=
  [strL "deposit amt.", strL "deposit", strL "credit amt.",
   strL "credit amount", strL "credit", strL "cr amt.", strL "cr"]

def dateKeys : List Str :=
  [strL "txn date", strL "transaction date", strL "value date",
   strL "value dt", strL "date", strL "posting date", strL "book date"]

def descKeys : List Str :=
  [strL "narration", strL "description", strL "desc", strL "remarks",
   strL "particulars", strL "transaction details", strL "details"]

def getDebitAmt (norm : Record) : Option JVal := findColVal norm debitKeys
def getCreditAmt (norm : Record) : Option JVal := findColVal norm creditKeys

def toUpperStr (s : Str) : Str := s.map upperChar

/-- `getDrCr`: first truthy value among the direction columns, upper-cased. -/
def getDrCr (norm : Record) : Str :=
  let pick := [strL "dr / cr", strL "dr/cr", strL "drcr", strL "cr/dr",
               strL "txn type", strL "transaction type", strL "type"].findSome?
    fun k => match objGet norm k with
      | some v => if jvalTruthy v then some v else none
      | none => none
  match pick with
  | some v => toUpperStr (jvalToStr v)
  | none => []

/-- `getTxDate` on the modelled value fragment.  The Excel-serial-number and
`Date`-object branches of the source concern numeric cells, which are outside
the string/array fragment carried by `JVal`; on strings the source returns
`raw.toString()` unchanged. -/
def getTxDate (norm : Record) : Str :=
  match findColVal norm dateKeys with
  | some v => if jvalTruthy v then jvalToStr v else []
  | none => []

/-- `getTxDesc`: the resolved description value, or `''`. -/
def getTxDesc (norm : Record) : JVal :=
  match findColVal norm descKeys with
  | some v => if jvalTruthy v then v else .vstr []
  | none => .vstr []

/-!
## Amount parsing (`parseAmount`) and the JS `Number()` fragment

Finite JS numbers are modelled as exact rationals.  `Q` is a fraction
`num / den` kept unnormalized (every constructor below produces a positive
denominator); equality, order, and the floor are given by the usual
cross-multiplication formulas, which are the rational-number semantics
whenever denominators are positive.  (Mathlib's `ℚ` is not used because its
normalizing arithmetic is defined by well-founded recursion, which the
kernel cannot evaluate on the concrete witnesses below.)
-/

structure Q : Type where
  num : ℤ
  den : ℕ
deriving DecidableEq

namespace Q

def ofInt (n : ℤ) : Q := ⟨n, 1⟩
def add (a b : Q) : Q := ⟨a.num * b.den + b.num * a.den, a.den * b.den⟩
def mul (a b : Q) : Q := ⟨a.num * b.num, a.den * b.den⟩
def neg (a : Q) : Q := ⟨-a.num, a.den⟩
/-- Multiplication by `10 ^ k`. -/
def mulPow10 (a : Q) (k : ℕ) : Q := ⟨a.num * (10 : ℤ) ^ k, a.den⟩
/-- Division by `10 ^ k`. -/
def divPow10 (a : Q) (k : ℕ) : Q := ⟨a.num, a.den * 10 ^ k⟩
/-- Value equality (JS `==`/`===` on numbers), by cross-multiplication. -/
def qeq (a b : Q) : Bool := a.num * b.den = b.num * a.den
/-- JS `<=` on numbers. -/
def qle (a b : Q) : Bool := a.num * b.den ≤ b.num * a.den
/-- JS `<` on numbers. -/
def qlt (a b : Q) : Bool := a.num * b.den < b.num * a.den
/-- The floor of the represented rational (denominator positive). -/
def qfloor (a : Q) : ℤ := Int.fdiv a.num a.den

end Q

/-- A JS number: a finite rational, `NaN`, or a signed infinity. `jsNumber`
below embeds the fragment of the `Number()` coercion that string inputs
exercise: optional sign, decimal literals with optional fraction and
exponent, `Infinity`, and the `0x`/`0o`/`0b` radix prefixes; anything else
is `NaN`.  (Float rounding and overflow-to-infinity of huge literals are not
modelled; amounts are exact rationals.) -/
inductive JNum : Type where
  | finite (q : Q)
  | nan
  | inf
  | ninf
deriving DecidableEq

def jnumIsFinite : JNum → Bool
  | .finite _ => true
  | _ => false

def digitVal (c : Char) : Nat := c.toNat - '0'.toNat

def digitsVal (l : Str) : Nat := l.foldl (fun acc c => acc * 10 + digitVal c) 0

def hexDigitVal (c : Char) : Nat :=
  if isDigitChar c then digitVal c else (lowerChar c).toNat - 'a'.toNat + 10

def isHexDigit (c : Char) : Bool :=
  isDigitChar c || ('a' ≤ lowerChar c && lowerChar c ≤ 'f')

/-- Decimal literal: `digits [. digits] [e[+-]digits]` with at least one
digit in the integer-or-fraction part. -/
def parseDecimal (s : Str) : Option Q :=
  let ip := s.takeWhile isDigitChar
  let r1 := s.drop ip.length
  let (fp, r2) :=
    match r1 with
    | '.' :: t => (t.takeWhile isDigitChar, t.drop (t.takeWhile isDigitChar).length)
    | _ => ([], r1)
  if ip.length + fp.length = 0 then none
  else
    let mant : Q := ⟨(digitsVal ip : ℤ) * (10 : ℤ) ^ fp.length + digitsVal fp,
                     10 ^ fp.length⟩
    match r2 with
    | [] => some mant
    | e :: t =>
      if e = 'e' ∨ e = 'E' then
        let (eneg, ed) : (Bool × Str) :=
          match t with
          | '+' :: t2 => (false, t2)
          | '-' :: t2 => (true, t2)
          | _ => (false, t)
        if ed ≠ [] ∧ ed.all isDigitChar then
          some (if eneg then mant.divPow10 (digitsVal ed)
                else mant.mulPow10 (digitsVal ed))
        else none
      else none

def parseRadix (pre : String) (isDig : Char → Bool) (dv : Char → Nat)
    (base : Nat) (s : Str) : Option Q :=
  if startsWith (toLower s) (strL pre) then
    let ds := s.drop 2
    if ds ≠ [] ∧ ds.all isDig then
      some (Q.ofInt (ds.foldl (fun acc c => acc * base + dv c) 0 : Nat))
    else none
  else none

/-- The `Number()` coercion on strings (modelled fragment). -/
def jsNumber (s : Str) : JNum :=
  let t := trim s
  if t = [] then .finite (Q.ofInt 0)
  else
    match parseRadix "0x" isHexDigit hexDigitVal 16 t with
    | some q => .finite q
    | none =>
    match parseRadix "0o" (fun c => '0' ≤ c && c ≤ '7') digitVal 8 t with
    | some q => .finite q
    | none =>
    match parseRadix "0b" (fun c => c = '0' || c = '1') digitVal 2 t with
    | some q => .finite q
    | none =>
      let (isNeg, body) : (Bool × Str) :=
        match t with
        | '+' :: t2 => (false, t2)
        | '-' :: t2 => (true, t2)
        | _ => (false, t)
      if body = strL "Infinity" then (if isNeg then .ninf else .inf)
      else
        match parseDecimal body with
        | some q => .finite (if isNeg then q.neg else q)
        | none => .nan

/-- The values `parseAmount` can receive across the code base: a JS number, a
`Date`, a string, or anything else (arrays, objects, `undefined`). -/
inductive AVal : Type where
  | num (j : JNum)
  | date
  | str (s : Str)
  | other
deriving DecidableEq

/-- `parseAmount` (lines 13–23): finite numbers pass through, `Date`s yield
null, strings are comma-stripped and `Number()`-parsed with a finiteness
check, everything else yields null. -/
def parseAmount : AVal → Option JNum
  | .num j => if jnumIsFinite j then some j else none
  | .date => none
  | .str s =>
      let cleaned := trim (s.filter (fun c => c ≠ ','))
      if cleaned = [] then none
      else
        let n := jsNumber cleaned
        if jnumIsFinite n then some n else none
  | .other => none

/-- The amount a record's resolved column value yields, as a rational
(`parseAmount` in the record pipeline, where values are strings/arrays). -/
def parseAmountV : Option JVal → Option Q
  | none => none
  | some (.vstr s) =>
      match parseAmount (.str s) with
      | some (.finite q) => some q
      | _ => none
  | some (.varr _) => none

/-- `isDebit`: trust an explicit DR/CR column, else infer from a populated
positive withdrawal/debit column (note: the inference key list stops at
`dr`, it does not include the generic `amount`/`amt`). -/
def isDebit (norm : Record) : Bool :=
  let drcr := getDrCr norm
  if drcr ≠ [] then drcr = strL "DR" || drcr = strL "DEBIT"
  else
    match parseAmountV (findColVal norm
      [strL "withdrawal amt.", strL "withdrawal", strL "debit amt.",
       strL "debit amount", strL "debit", strL "dr amt.", strL "dr"]) with
    | some q => Q.qlt (Q.ofInt 0) q
    | none => false

def isCredit (norm : Record) : Bool :=
  let drcr := getDrCr norm
  if drcr ≠ [] then drcr = strL "CR" || drcr = strL "CREDIT"
  else
    match parseAmountV (getCreditAmt norm) with
    | some q => Q.qlt (Q.ofInt 0) q
    | none => false

/-- `Math.round`: round half toward positive infinity. -/
def jsRound (q : Q) : ℤ := Q.qfloor (q.add ⟨1, 2⟩)

/-!
## The extended date canonicalizer (`canonicalDate`, lines 400–413)

The two regexes are hand-compiled: `^(\d{4}) sep (\d{1,2}) sep (\d{1,2})$`
with separator class `-` or `/` (ISO), and
`^(\d{1,2}) sep (\d{1,2}) sep (\d{2,4})$` with separator class `-`, `/` or
`.` (day-first).  Both are anchored and their separators are non-digits, so
the backtracking match is the evident structural decomposition.
-/

def padStart2 (s : Str) : Str := List.replicate (2 - s.length) '0' ++ s

def isDateSep (c : Char) : Bool := c = '-' || c = '/'
def isDateSepDot (c : Char) : Bool := c = '-' || c = '/' || c = '.'

/-- Match the ISO pattern (separators `-` or `/`), returning
(year, month, day). -/
def matchISO (s : Str) : Option (Str × Str × Str) :=
  let y := s.take 4
  match s.drop 4 with
  | sep1 :: r1 =>
    let m := r1.takeWhile isDigitChar
    match r1.drop m.length with
    | sep2 :: r2 =>
      if y.length = 4 ∧ y.all isDigitChar ∧ isDateSep sep1 ∧ 1 ≤ m.length ∧
         m.length ≤ 2 ∧ isDateSep sep2 ∧ r2 ≠ [] ∧ r2.length ≤ 2 ∧
         r2.all isDigitChar then
        some (y, m, r2)
      else none
    | [] => none
  | [] => none

/-- Match the day-first pattern (separators `-`, `/` or `.`), returning
(day, month, year). -/
def matchDMY (s : Str) : Option (Str × Str × Str) :=
  let d := s.takeWhile isDigitChar
  match s.drop d.length with
  | sep1 :: r1 =>
    let m := r1.takeWhile isDigitChar
    match r1.drop m.length with
    | sep2 :: r2 =>
      if 1 ≤ d.length ∧ d.length ≤ 2 ∧ isDateSepDot sep1 ∧ 1 ≤ m.length ∧
         m.length ≤ 2 ∧ isDateSepDot sep2 ∧ 2 ≤ r2.length ∧ r2.length ≤ 4 ∧
         r2.all isDigitChar then
        some (d, m, r2)
      else none
    | [] => none
  | [] => none

/-- `canonicalDate`: normalize ISO / day-first / 2-digit-year date strings to
`DD/MM/YYYY`; anything else passes through trimmed. -/
def canonicalDate (dateStr : Str) : Str :=
  if dateStr = [] then []
  else
    let s := trim dateStr
    match matchISO s with
    | some (y, m, d) => padStart2 d ++ strL "/" ++ padStart2 m ++ strL "/" ++ y
    | none =>
      match matchDMY s with
      | some (d, m, y) =>
        let year := if y.length = 2 then strL "20" ++ y else y
        padStart2 d ++ strL "/" ++ padStart2 m ++ strL "/" ++ year
      | none => s

end StmtA

namespace StmtA

/-!
## Merchant and subscription pattern tables

Each table entry embeds one JavaScript regex of the source verbatim through
the smart constructors: `strI` is a case-insensitive literal, `seqWsI a b`
is `a\s*b`, `RE.wb` is `\b`, `rePlus`/`RE.star`/`reOpt` are `+`/`*`/`?`,
`RE.nla` is `(?!...)`, and `reDotStar` is `.*`.
-/

def wsStar : RE := RE.star reWs
/-- `a\s*b` for literals `a`, `b` (case-insensitive). -/
def seqWsI (a b : String) : RE := .cat (strI a) (.cat wsStar (strI b))
/-- `\ba\b` for a literal `a` (case-insensitive). -/
def wbdI (a : String) : RE := .cat .wb (.cat (strI a) .wb)
def reDotStar : RE := RE.star reDot

/-- `MERCHANT_MAP` (lines 104–118): ordered (pattern, canonical name). -/
def MERCHANT_MAP : List (RE × Str) := [
  (strI "netflix", strL "Netflix"),          (strI "spotify", strL "Spotify"),
  (altsI ["hotstar", "disney"], strL "Disney+ Hotstar"),
  (.alt (seqWsI "amazon" "prime") (strI "primevideo"), strL "Amazon Prime"),
  (seqWsI "youtube" "premium", strL "YouTube Premium"),
  (strI "zee5", strL "Zee5"), (strI "sonyliv", strL "SonyLIV"),
  (strI "render.com", strL "Render.com"),    (strI "github", strL "GitHub"),
  (strI "notion", strL "Notion"),
  (strI "figma", strL "Figma"),              (altsI ["openai", "chatgpt"], strL "OpenAI"),
  (strI "slack", strL "Slack"),
  (strI "zoom", strL "Zoom"),                (strI "google", strL "Google"),
  (altsI ["microsoft", "msft"], strL "Microsoft"),
  (strI "dropbox", strL "Dropbox"),          (strI "apple", strL "Apple"),
  (strI "jio", strL "Jio"),
  (strI "airtel", strL "Airtel"),            (strI "bsnl", strL "BSNL"),
  (strI "vodafone", strL "Vodafone"),
  (seqWsI "bajaj" "finance", strL "Bajaj Finance"),
  (strI "hdfc", strL "HDFC"),                (strI "icici", strL "ICICI"),
  (strI "swiggy", strL "Swiggy"),            (strI "zomato", strL "Zomato"),
  (strI "amazon", strL "Amazon"),
  (strI "flipkart", strL "Flipkart"),        (strI "myntra", strL "Myntra"),
  (strI "paytm", strL "Paytm"),
  (strI "phonepe", strL "PhonePe"),          (strI "razorpay", strL "Razorpay"),
  (.cat (strI "ola") .wb, strL "Ola"),
  (strI "uber", strL "Uber"),                (strI "irctc", strL "IRCTC"),
  (strI "bookmyshow", strL "BookMyShow")]

/-- `SUBSCRIPTION_PATTERNS` (lines 120–127). -/
def SUBSCRIPTION_PATTERNS : List RE := [
  strI "netflix", strI "spotify", strI "hotstar", strI "disney",
  seqWsI "prime" "video", seqWsI "amazon" "prime",
  seqWsI "youtube" "premium", strI "zee5", strI "sonyliv",
  strI "render.com", strI "github", strI "notion",
  strI "figma", strI "openai", strI "chatgpt", strI "slack", wbdI "zoom",
  .cat (strI "google") (.cat wsStar (altsI ["one", "workspace"])),
  .cat (strI "microsoft") (.cat wsStar (altsI ["365", "office"])),
  strI "dropbox",
  .cat (strI "net") (.cat wsStar (.cat (strI "banking") (.cat wsStar (strI "si")))),
  seqWsI "standing" "instruct",
  -- si\s*[-–]\s*monthly  (– is the en dash)
  .cat (strI "si") (.cat wsStar (.cat (clsOf ['-', '–']) (.cat wsStar (strI "monthly")))),
  wbdI "emi", .cat (strI "loan") (.cat wsStar (altsI ["emi", "inst"]))]

def isLikelySubscription (desc : Str) : Bool :=
  SUBSCRIPTION_PATTERNS.any fun p => reTest p desc

/-- `FOOTER_KEYWORDS` (lines 87–91). -/
def FOOTER_KEYWORDS : List Str :=
  [strL "statement summary", strL "opening balance", strL "closing balance",
   strL "generated on", strL "dr count", strL "cr count", strL "total debit",
   strL "total credit", strL "account summary", strL "note :", strL "note:",
   strL "disclaimer"]

/-- `isSummaryTx` (lines 94–101): the lower-cased description, or the first
non-empty (stringified, lower-cased, trimmed) value of the row, starts with a
footer keyword. -/
def firstNonEmptyVal (norm : Record) : Str :=
  match (norm.map (fun kv => trim (toLower (jvalToStr kv.2)))).find?
      (fun v => v.length > 0) with
  | some v => v
  | none => []

def isSummaryTx (norm : Record) : Bool :=
  let desc := trim (toLower (jvalToStr (getTxDesc norm)))
  FOOTER_KEYWORDS.any fun kw =>
    startsWith desc kw || startsWith (firstNonEmptyVal norm) kw

/-- The row-stream part of `parseCSV` (lines 388–394): normalize every parsed
row, then truncate at the first summary/footer row.  (`Papa.parse` itself is
an external library; this function receives its output rows.) -/
def parseCSVRows (rows : List Record) : List Record :=
  match (rows.map buildNorm).findIdx? isSummaryTx with
  | none => rows.map buildNorm
  | some endIdx => (rows.map buildNorm).take endIdx

end StmtA

namespace StmtA

/-!
## Merchant display-name cleanup (`cleanMerchantName`, lines 343–383)
-/

/-- `[A-Z0-9]` of a case-insensitive pattern: any letter or digit. -/
def isAlnumI (c : Char) : Bool :=
  isDigitChar c || ('a' ≤ lowerChar c && lowerChar c ≤ 'z')

/-- The UPI name-part match
`s.match(` then caret `([^@]{2,40})@[A-Z0-9]+` with two optional
`[-.]?[A-Z0-9]*` tails, flag `i)`, hand-compiled: since `[^@]` cannot cross
the first `@`, the pattern matches exactly when the first `@` sits at index
2–40 and is followed by a letter/digit; group 1 is everything before it. -/
def upiNameMatch (s : Str) : Option Str :=
  let pre := s.takeWhile (fun c => c ≠ '@')
  if 2 ≤ pre.length ∧ pre.length ≤ 40 then
    match s.drop pre.length with
    | '@' :: c :: _ => if isAlnumI c then some pre else none
    | _ => none
  else none

/-- Suffix strip inside the UPI branch:
`-(GPAY|PAYTM|YBL|OKAXIS|OKSBI|OKICICI|OKHDFCBANK|YESB|IDFCFIRST|INDUS|FEDERAL|AXIS|SBI|HDFC|ICICI|KOTAK)$` flag i. -/
def upiSuffixRE : RE :=
  .cat (chI '-') (.cat (altsI ["gpay", "paytm", "ybl", "okaxis", "oksbi",
    "okicici", "okhdfcbank", "yesb", "idfcfirst", "indus", "federal", "axis",
    "sbi", "hdfc", "icici", "kotak"]) .eos)

/-- Trailing UPI token: `[\-_]([A-Z0-9]{8,})$` flag i. -/
def upiTokenRE : RE :=
  .cat (clsOf ['-', '_']) (.cat (reRepAtLeast (.cls isAlnumI) 8) .eos)

/-- `\s{2,}` (whitespace runs of length at least 2, replaced by one space). -/
def ws2RE : RE := .cat reWs (rePlus reWs)

/-- JS `name.replace(` backslash-b backslash-w `/g, c => c.toUpperCase())`:
upper-case every word character at a word boundary (start of string or after
a non-word character). -/
def titleCase (s : Str) : Str :=
  (List.range s.length).map fun i =>
    let c := s.getD i ' '
    if isWordChar c ∧ (i = 0 ∨ ¬ isWordChar (s.getD (i - 1) ' ')) then upperChar c
    else c

/-- `^(GPAY|PHONEPE|PAYTM|BHIM)` then `[\s@-]+` (flag i). -/
def gpayPrefixRE : RE :=
  .cat .bos (.cat (altsI ["gpay", "phonepe", "paytm", "bhim"])
    (rePlus (.cls fun c => isSpaceChar c || c = '@' || c = '-')))

/-- `^\d+\s+` (leading numeric ID). -/
def leadNumRE : RE := .cat .bos (.cat (rePlus reDigit) (rePlus reWs))

/-- `^(UPI|IMPS|NEFT|RTGS|ACH\s*DR|IB\s*BILLPAY\s*DR)` then `[-\s:]+` (flag i). -/
def txTypePrefixRE : RE :=
  .cat .bos (.cat (reAlts [strI "upi", strI "imps", strI "neft", strI "rtgs",
    seqWsI "ach" "dr",
    .cat (strI "ib") (.cat wsStar (.cat (strI "billpay") (.cat wsStar (strI "dr"))))])
    (rePlus (.cls fun c => c = '-' || isSpaceChar c || c = ':')))

/-- `^(EAW|ATW|NWD|IWD)` then `[-\s][^-]+-[^-]+-` (ATM prefix, flag i). -/
def atmPrefixRE : RE :=
  .cat .bos (.cat (altsI ["eaw", "atw", "nwd", "iwd"])
    (.cat (.cls fun c => c = '-' || isSpaceChar c)
      (.cat (rePlus (.cls fun c => c ≠ '-'))
        (.cat (chE '-') (.cat (rePlus (.cls fun c => c ≠ '-')) (chE '-'))))))

/-- `^POS\s+[\dX\s]*` (POS prefix, flag i — so `x` matches either case). -/
def posPrefixRE : RE :=
  .cat .bos (.cat (strI "pos") (.cat (rePlus reWs)
    (.star (.cls fun c => isDigitChar c || lowerChar c = 'x' || isSpaceChar c))))

/-- `^\d+[-\s]+` (remaining leading digits). -/
def leadNum2RE : RE :=
  .cat .bos (.cat (rePlus reDigit) (rePlus (.cls fun c => c = '-' || isSpaceChar c)))

/-- `[-_][\dX]{6,}` global, NO i flag: only an upper-case `X` matches. -/
def maskedIdRE : RE :=
  .cat (clsOf ['-', '_']) (reRepAtLeast (.cls fun c => isDigitChar c || c = 'X') 6)

/-- `@[\w.-]+$` (trailing UPI handle, flag i). -/
def atHandleRE : RE :=
  .cat (chE '@') (.cat (rePlus (.cls fun c => isWordChar c || c = '.' || c = '-')) .eos)

/-- `-?(UTIB|KKBK|SBIN|HDFC|ICIC|YESB|IDFB|INDB|FDRL|AXIS|PYTM)\d*[-\w]*`
global, flag i (IFSC-style codes). -/
def ifscRE : RE :=
  .cat (reOpt (chE '-')) (.cat (altsI ["utib", "kkbk", "sbin", "hdfc", "icic",
    "yesb", "idfb", "indb", "fdrl", "axis", "pytm"])
    (.cat (.star reDigit) (.star (.cls fun c => c = '-' || isWordChar c))))

/-- `s.charAt(0).toUpperCase() + s.slice(1)`. -/
def upFirst : Str → Str
  | [] => []
  | c :: t => upperChar c :: t

/-- The substitution chain of `cleanMerchantName` step 3 (lines 367–380),
applied to the trimmed raw string. -/
def cleanChain (s0 : Str) : Str :=
  let s1 := reReplaceFirst gpayPrefixRE [] s0
  let s2 := reReplaceFirst leadNumRE [] s1
  let s3 := reReplaceFirst txTypePrefixRE [] s2
  let s4 := reReplaceFirst atmPrefixRE [] s3
  let s5 := reReplaceFirst posPrefixRE [] s4
  let s6 := reReplaceFirst leadNum2RE [] s5
  let s7 := reReplaceAll maskedIdRE [] s6
  let s8 := reReplaceFirst atHandleRE [] s7
  let s9 := reReplaceAll ifscRE [] s8
  trim (reReplaceAll ws2RE (strL " ") s9)

/-- `cleanMerchantName` (lines 343–383): merchant map first, then UPI
name-part extraction, then the noise-stripping substitution chain, with a
32-character raw fallback. -/
def cleanMerchantName (raw : Str) : Str :=
  if raw = [] then strL "Unknown"
  else
    match MERCHANT_MAP.find? (fun e => reTest e.1 raw) with
    | some e => e.2
    | none =>
      let s := trim raw
      let upiResult : Option Str :=
        match upiNameMatch s with
        | some part =>
          let n1 := reReplaceFirst upiSuffixRE [] part
          let n2 := reReplaceFirst upiTokenRE [] n1
          let n3 := n2.map fun c => if c = '_' ∨ c = '-' then ' ' else c
          let name := trim (reReplaceAll ws2RE (strL " ") n3)
          if name.length > 2 then some (titleCase name) else none
        | none => none
      match upiResult with
      | some nm => nm
      | none =>
        let cleaned := cleanChain s
        if cleaned.length > 2 then upFirst cleaned else raw.take 32

end StmtA

namespace StmtA

/-!
## Spending category map and classifier (lines 132–341)

`Cat` is the `{name, emoji, color}` result record.  Every `CATEGORY_MAP`
entry transliterates one source regex in table order (first match wins).
-/

structure Cat : Type where
  name : String
  emoji : String
  color : String
deriving DecidableEq

def mkC (p : RE) (n e c : String) : RE × Cat := (p, ⟨n, e, c⟩)

def CATEGORY_MAP : List (RE × Cat) := [
  -- Streaming
  mkC (strI "netflix")                        "Streaming" "📺" "#e50914",
  mkC (strI "spotify")                        "Streaming" "📺" "#1db954",
  mkC (altsI ["hotstar", "disney"])           "Streaming" "📺" "#1a2b6d",
  mkC (strI "zee5")                           "Streaming" "📺" "#7b2ff7",
  mkC (strI "sonyliv")                        "Streaming" "📺" "#0066cc",
  mkC (.alt (seqWsI "amazon" "prime") (strI "primevideo")) "Streaming" "📺" "#ff9900",
  mkC (seqWsI "youtube" "premium")            "Streaming" "📺" "#ff0000",
  mkC (.alt (seqWsI "jio" "cinema") (strI "jiocinema")) "Streaming" "📺" "#0a6ebd",
  mkC (.alt (strI "mxplayer") (seqWsI "mx" "player")) "Streaming" "📺" "#ff6b35",
  mkC (.alt (seqWsI "apple" "tv") (strI "appletv")) "Streaming" "📺" "#555555",
  -- Food & Dining
  mkC (strI "swiggy")                         "Food & Dining" "🍔" "#fc8019",
  mkC (strI "zomato")                         "Food & Dining" "🍔" "#e23744",
  -- dominos?\b
  mkC (.cat (strI "domino") (.cat (reOpt (chI 's')) .wb)) "Food & Dining" "🍔" "#006491",
  mkC (seqWsI "pizza" "hut")                  "Food & Dining" "🍔" "#ee3124",
  -- mcdonalds?|\bmcd\b
  mkC (.alt (.cat (strI "mcdonald") (reOpt (chI 's'))) (wbdI "mcd")) "Food & Dining" "🍔" "#ffbc0d",
  mkC (wbdI "kfc")                            "Food & Dining" "🍔" "#f40027",
  mkC (wbdI "subway")                         "Food & Dining" "🍔" "#008c15",
  mkC (seqWsI "burger" "king")                "Food & Dining" "🍔" "#f5821f",
  -- starbucks|ccd\b|barista|cafe|coffee
  mkC (reAlts [strI "starbucks", .cat (strI "ccd") .wb, strI "barista",
    strI "cafe", strI "coffee"])              "Food & Dining" "☕" "#6f4e37",
  mkC (reAlts [strI "restaurant", strI "dining", strI "canteen",
    strI "eatery", seqWsI "food" "court"])    "Food & Dining" "🍔" "#e53935",
  -- Groceries
  mkC (.alt (strI "bigbasket") (seqWsI "bb" "now")) "Groceries" "🛒" "#84c225",
  mkC (altsI ["blinkit", "grofers"])          "Groceries" "🛒" "#f8d100",
  mkC (strI "zepto")                          "Groceries" "🛒" "#8b5cf6",
  mkC (.alt (wbdI "dmart") (strI "d-mart"))   "Groceries" "🛒" "#e53935",
  mkC (.cat (strI "reliance") (.cat wsStar (altsI ["fresh", "smart"]))) "Groceries" "🛒" "#1565c0",
  mkC (strI "jiomart")                        "Groceries" "🛒" "#0a6ebd",
  mkC (.cat (strI "more") (.cat wsStar (altsI ["supermarket", "retail"]))) "Groceries" "🛒" "#e53935",
  mkC (.alt (seqWsI "nature" "basket") (seqWsI "godrej" "nature")) "Groceries" "🛒" "#4caf50",
  mkC (altsI ["grocery", "supermarket", "hypermarket"]) "Groceries" "🛒" "#4caf50",
  -- Shopping
  -- amazon(?!\s*prime)
  mkC (.cat (strI "amazon") (.nla (.cat wsStar (strI "prime")))) "Shopping" "🛍️" "#ff9900",
  mkC (strI "flipkart")                       "Shopping" "🛍️" "#2874f0",
  mkC (strI "myntra")                         "Shopping" "🛍️" "#ff3f6c",
  mkC (strI "nykaa")                          "Shopping" "🛍️" "#fc2779",
  mkC (wbdI "ajio")                           "Shopping" "🛍️" "#e53935",
  mkC (strI "meesho")                         "Shopping" "🛍️" "#9b59b6",
  mkC (seqWsI "tata" "cliq")                  "Shopping" "🛍️" "#1a1a2e",
  mkC (strI "snapdeal")                       "Shopping" "🛍️" "#e40000",
  mkC (strI "lenskart")                       "Shopping" "🛍️" "#ff6b35",
  mkC (strI "firstcry")                       "Shopping" "🛍️" "#ff6b35",
  -- Travel & Transport
  mkC (wbdI "uber")                           "Travel" "🚗" "#1a1a1a",
  mkC (wbdI "ola")                            "Travel" "🚗" "#5bb300",
  mkC (strI "rapido")                         "Travel" "🚗" "#ffd700",
  mkC (strI "redbus")                         "Travel" "🚌" "#d84f20",
  mkC (.alt (strI "makemytrip") (wbdI "mmt")) "Travel" "✈️" "#e53935",
  mkC (strI "goibibo")                        "Travel" "✈️" "#0d9fdd",
  -- yatra\.com|yatra\b
  mkC (.alt (strI "yatra.com") (.cat (strI "yatra") .wb)) "Travel" "✈️" "#e53935",
  mkC (strI "irctc")                          "Travel" "🚆" "#e91e63",
  mkC (reAlts [strI "indigo", strI "spicejet", seqWsI "air" "india",
    strI "vistara", seqWsI "go" "first", strI "akasa"]) "Travel" "✈️" "#1565c0",
  mkC (wbdI "oyo")                            "Travel" "🏨" "#ee2e24",
  mkC (strI "airbnb")                         "Travel" "🏨" "#ff5a5f",
  mkC (altsI ["hotel", "resort", "lodge"])    "Travel" "🏨" "#795548",
  mkC (.alt (wbdI "cab") (strI "taxi"))       "Travel" "🚗" "#607d8b",
  -- Fuel
  mkC (reAlts [strI "petrol", strI "diesel", wbdI "fuel"]) "Fuel" "⛽" "#795548",
  mkC (.alt (strI "bpcl") (seqWsI "bharat" "petro")) "Fuel" "⛽" "#ff6b00",
  mkC (.alt (strI "hpcl") (seqWsI "hindustan" "petro")) "Fuel" "⛽" "#0055a4",
  mkC (.alt (strI "iocl") (seqWsI "indian" "oil")) "Fuel" "⛽" "#e63329",
  mkC (wbdI "shell")                          "Fuel" "⛽" "#f5d600",
  mkC (strI "nayara")                         "Fuel" "⛽" "#e91e63",
  -- Health & Medical
  mkC (strI "medplus")                        "Health" "💊" "#00897b",
  mkC (strI "netmeds")                        "Health" "💊" "#0077c8",
  mkC (.alt (strI "1mg") (seqWsI "tata" "1mg")) "Health" "💊" "#e53935",
  mkC (strI "practo")                         "Health" "💊" "#5c6bc0",
  mkC (.cat (strI "apollo") (.cat wsStar (altsI ["pharm", "hosp"]))) "Health" "🏥" "#003d7c",
  mkC (reAlts [strI "fortis", seqWsI "max" "hosp", seqWsI "manipal" "hosp"]) "Health" "🏥" "#e53935",
  mkC (reAlts [strI "pharmacy", strI "chemist", seqWsI "medical" "store",
    seqWsI "med" "shop"])                     "Health" "💊" "#e91e63",
  mkC (reAlts [strI "hospital", strI "clinic", strI "diagnostic",
    seqWsI "lab" "test", strI "pathology"])   "Health" "🏥" "#e91e63",
  -- Education
  mkC (strI "udemy")                          "Education" "📚" "#a435f0",
  mkC (strI "coursera")                       "Education" "📚" "#0056d2",
  mkC (strI "byju")                           "Education" "📚" "#6b48ff",
  mkC (strI "unacademy")                      "Education" "📚" "#08bd80",
  mkC (strI "upgrad")                         "Education" "📚" "#e53935",
  mkC (strI "skillshare")                     "Education" "📚" "#002333",
  mkC (reAlts [seqWsI "school" "fee", seqWsI "college" "fee",
    strI "tuition", seqWsI "exam" "fee"])     "Education" "📚" "#1565c0",
  -- Utilities & Bills
  mkC (reAlts [strI "electricity", strI "bescom", strI "tneb", strI "msedcl",
    wbdI "cesc", seqWsI "adani" "elec", seqWsI "tata" "power"]) "Utilities" "💡" "#f57c00",
  mkC (.alt (seqWsI "water" "bill") (strI "bwssb")) "Utilities" "💧" "#0288d1",
  mkC (reAlts [seqWsI "piped" "gas", wbdI "mgl", wbdI "igl",
    seqWsI "mahanagar" "gas"])                "Utilities" "🔥" "#f44336",
  mkC (reAlts [strI "indane", seqWsI "bharat" "gas", seqWsI "hp" "gas",
    wbdI "lpg"])                              "Utilities" "🔥" "#ff7043",
  -- broadband|internet\s*bill|wi.?fi
  mkC (reAlts [strI "broadband", seqWsI "internet" "bill",
    .cat (strI "wi") (.cat (reOpt reDot) (strI "fi"))]) "Utilities" "🌐" "#0288d1",
  mkC (.alt (seqWsI "bill" "pay") (seqWsI "utility" "pay")) "Utilities" "💡" "#f57c00",
  -- Telecom
  -- jio(?!mart|cinema)
  mkC (.cat (strI "jio") (.nla (altsI ["mart", "cinema"]))) "Telecom" "📱" "#0a6ebd",
  mkC (strI "airtel")                         "Telecom" "📱" "#e53935",
  mkC (.alt (strI "vodafone") (wbdI "vi"))    "Telecom" "📱" "#e40000",
  mkC (wbdI "bsnl")                           "Telecom" "📱" "#003366",
  mkC (reAlts [seqWsI "mobile" "bill", strI "postpaid",
    seqWsI "prepaid" "recharge", strI "recharge"]) "Telecom" "📱" "#607d8b",
  -- Insurance
  mkC (.alt (wbdI "lic") (seqWsI "life" "insur")) "Insurance" "🛡️" "#003d7c",
  mkC (.cat (strI "hdfc") (.cat wsStar (altsI ["ergo", "life", "insur"]))) "Insurance" "🛡️" "#004c8c",
  mkC (.cat (strI "icici") (.cat wsStar (altsI ["lombard", "pru"]))) "Insurance" "🛡️" "#f37021",
  mkC (reAlts [seqWsI "star" "health", seqWsI "care" "health",
    seqWsI "niva" "bupa"])                    "Insurance" "🛡️" "#e53935",
  mkC (seqWsI "bajaj" "allianz")              "Insurance" "🛡️" "#003d7c",
  mkC (.alt (seqWsI "insurance" "prem") (seqWsI "policy" "prem")) "Insurance" "🛡️" "#1565c0",
  -- Investments
  mkC (strI "groww")                          "Investments" "📈" "#00d09c",
  mkC (.alt (strI "zerodha") (wbdI "kite"))   "Investments" "📈" "#387ed1",
  mkC (strI "upstox")                         "Investments" "📈" "#7c4dff",
  mkC (strI "kuvera")                         "Investments" "📈" "#5c6bc0",
  mkC (strI "smallcase")                      "Investments" "📈" "#2bb793",
  -- mutual\s*fund|\bmf\b.*sip|\bsip\b|\bnps\b|\bppf\b|\belss\b
  mkC (reAlts [seqWsI "mutual" "fund",
    .cat (wbdI "mf") (.cat reDotStar (strI "sip")),
    wbdI "sip", wbdI "nps", wbdI "ppf", wbdI "elss"]) "Investments" "📈" "#1565c0",
  mkC (reAlts [strI "demat", strI "brokerage", strI "equity",
    wbdI "nse", wbdI "bse"])                  "Investments" "📈" "#1565c0",
  -- EMI & Loans
  mkC (wbdI "emi")                            "EMI & Loans" "💰" "#6a1b9a",
  mkC (.cat (strI "loan") (.cat wsStar (altsI ["emi", "inst", "repay"]))) "EMI & Loans" "💰" "#6a1b9a",
  mkC (seqWsI "bajaj" "finance")              "EMI & Loans" "💰" "#6a1b9a",
  mkC (reAlts [seqWsI "home" "loan", seqWsI "car" "loan",
    seqWsI "personal" "loan", seqWsI "education" "loan"]) "EMI & Loans" "💰" "#6a1b9a",
  -- ATM & Cash: atm\s*(wd|wdl|cash|with)|cash\s*with|\bnwd\b|\biwd\b|\beaw\b|\batw\b
  mkC (reAlts [.cat (strI "atm") (.cat wsStar (altsI ["wd", "wdl", "cash", "with"])),
    seqWsI "cash" "with", wbdI "nwd", wbdI "iwd", wbdI "eaw", wbdI "atw"]) "ATM & Cash" "🏧" "#455a64",
  -- Wallet & UPI apps
  mkC (strI "paytm")                          "Wallet & UPI" "📲" "#00b9f1",
  mkC (strI "mobikwik")                       "Wallet & UPI" "📲" "#6739b7",
  mkC (strI "freecharge")                     "Wallet & UPI" "📲" "#f6c000",
  mkC (wbdI "bhim")                           "Wallet & UPI" "📲" "#00897b",
  -- Credit Card payments
  -- credit\s*card\s*(pay|bill|due)|\bcc\s*(pay|bill|due|emi)\b
  mkC (.alt
    (.cat (strI "credit") (.cat wsStar (.cat (strI "card")
      (.cat wsStar (altsI ["pay", "bill", "due"])))))
    (.cat .wb (.cat (strI "cc") (.cat wsStar
      (.cat (altsI ["pay", "bill", "due", "emi"]) .wb))))) "Credit Card" "💳" "#c62828",
  -- (hdfc|icici|sbi|axis|kotak|amex|citi)\s*(cc|credit\s*card|visa|master|rupay)
  mkC (.cat (altsI ["hdfc", "icici", "sbi", "axis", "kotak", "amex", "citi"])
    (.cat wsStar (reAlts [strI "cc", seqWsI "credit" "card", strI "visa",
      strI "master", strI "rupay"])))         "Credit Card" "💳" "#c62828",
  -- NACH / ECS / auto-debit: \bnach\b|\becs\b|\bmandatepay|\bautopay\b|\bauto\s*debit\b
  mkC (reAlts [wbdI "nach", wbdI "ecs", .cat .wb (strI "mandatepay"),
    wbdI "autopay", .cat .wb (.cat (strI "auto") (.cat wsStar (.cat (strI "debit") .wb)))])
    "Auto Debit" "🔁" "#5c6bc0",
  -- Cheque & self transfers:
  -- \bself\b|\bown\s*a\/c\b|chq\s*paid|cheque\s*paid|\bcheque\b.*issued
  mkC (reAlts [wbdI "self",
    .cat .wb (.cat (strI "own") (.cat wsStar (.cat (strI "a/c") .wb))),
    seqWsI "chq" "paid", seqWsI "cheque" "paid",
    .cat (wbdI "cheque") (.cat reDotStar (strI "issued"))]) "Transfers" "🔄" "#607d8b",
  mkC (wbdI "imps")                           "Transfers" "🔄" "#607d8b",
  -- More EMI patterns: bajaj.*fin|bajajfinotp|\bbfl\d
  mkC (reAlts [.cat (strI "bajaj") (.cat reDotStar (strI "fin")),
    strI "bajajfinotp", .cat .wb (.cat (strI "bfl") reDigit)]) "EMI & Loans" "💰" "#6a1b9a",
  -- \bnach.*emi\b|\bemi.*nach\b
  mkC (.alt (.cat .wb (.cat (strI "nach") (.cat reDotStar (.cat (strI "emi") .wb))))
    (.cat .wb (.cat (strI "emi") (.cat reDotStar (.cat (strI "nach") .wb)))))
    "EMI & Loans" "💰" "#6a1b9a",
  -- More Food & Dining
  mkC (reAlts [strI "caterer", strI "catering", wbdI "dhaba", wbdI "dabha",
    strI "tiffin", strI "bhojan", strI "bhojanalay"]) "Food & Dining" "🍔" "#e53935",
  mkC (reAlts [wbdI "chai",
    .cat (strI "tea") (.cat wsStar (altsI ["house", "stall", "shop"])),
    seqWsI "snack" "bar", seqWsI "fast" "food"]) "Food & Dining" "☕" "#6f4e37",
  mkC (reAlts [strI "bakery",
    .cat (strI "sweet") (.cat wsStar (altsI ["shop", "mart"])),
    strI "mithai", strI "confection"])        "Food & Dining" "🍰" "#e53935",
  -- More Groceries
  mkC (reAlts [strI "kirana",
    .cat (strI "provision") (.cat wsStar (altsI ["store", "shop"])),
    seqWsI "general" "store"])                "Groceries" "🛒" "#4caf50",
  -- Housing & Rent
  mkC (reAlts [wbdI "rent", wbdI "lease", wbdI "tenancy"]) "Housing & Rent" "🏠" "#795548",
  -- \bpg\b.*rent|paying\s*guest
  mkC (.alt (.cat (wbdI "pg") (.cat reDotStar (strI "rent")))
    (seqWsI "paying" "guest"))                "Housing & Rent" "🏠" "#795548",
  mkC (reAlts [strI "society",
    .cat (strI "maintenance") (.cat wsStar (altsI ["fee", "charg"])),
    seqWsI "hsg" "soc", seqWsI "housing" "soc", strI "apartment",
    seqWsI "flat" "no"])                      "Housing & Rent" "🏠" "#795548",
  mkC (reAlts [seqWsI "property" "tax", seqWsI "house" "tax",
    seqWsI "municipal" "tax", wbdI "brihanmumbai", wbdI "nmc", wbdI "bmc"])
    "Housing & Rent" "🏠" "#795548",
  mkC (reAlts [strI "stampduty", seqWsI "stamp" "duty",
    seqWsI "registration" "fee", seqWsI "home" "regist"]) "Housing & Rent" "🏠" "#795548",
  -- Fees & Charges:
  -- \bcharge\b|\bfee\b.*bank|bank.*\bfee\b|annual\s*fee|service\s*charge|\bpenalty\b
  mkC (reAlts [wbdI "charge",
    .cat (wbdI "fee") (.cat reDotStar (strI "bank")),
    .cat (strI "bank") (.cat reDotStar (wbdI "fee")),
    seqWsI "annual" "fee", seqWsI "service" "charge", wbdI "penalty"])
    "Bank Charges" "🏦" "#607d8b",
  mkC (reAlts [wbdI "gst", seqWsI "tax" "deduct", wbdI "tds", wbdI "tcs"])
    "Taxes & Govt" "🏛️" "#546e7a",
  mkC (reAlts [strI "passport", seqWsI "visa" "fee", wbdI "rto", wbdI "vahan",
    seqWsI "driving" "licen", seqWsI "traffic" "fine", wbdI "echallan"])
    "Taxes & Govt" "🏛️" "#546e7a",
  -- Charity & Donations:
  -- donat|charity|\bngo\b|foundation|trust\s*(fund)?|relief\s*fund|pm\s*(cares|relief)
  mkC (reAlts [strI "donat", strI "charity", wbdI "ngo", strI "foundation",
    .cat (strI "trust") (.cat wsStar (reOpt (strI "fund"))),
    seqWsI "relief" "fund",
    .cat (strI "pm") (.cat wsStar (altsI ["cares", "relief"]))])
    "Donations" "🤍" "#e91e63",
  -- Transfers (broad — keep near bottom)
  mkC (altsI ["neft", "rtgs"])                "Transfers" "🔄" "#607d8b",
  mkC (.alt (seqWsI "self" "transfer") (seqWsI "own" "acct")) "Transfers" "🔄" "#607d8b",
  mkC (reAlts [seqWsI "sent" "to", seqWsI "transfer" "to", seqWsI "trf" "to"])
    "Transfers" "🔄" "#607d8b"]

end StmtA

namespace StmtA

/-- `UPI_VPA_RE` (line 292):
`@(ok(?:axis|sbi|icici|hdfcbank)|ybl|idfcfirst|indus|federal|axisbank|apl|pthdfc|ptsbi|ptyes|okbizaxis|okhdfcbank)` then `\b`, flag i. -/
def UPI_VPA_RE : RE :=
  .cat (chE '@') (.cat (reAlts [
    .cat (strI "ok") (altsI ["axis", "sbi", "icici", "hdfcbank"]),
    strI "ybl", strI "idfcfirst", strI "indus", strI "federal",
    strI "axisbank", strI "apl", strI "pthdfc", strI "ptsbi", strI "ptyes",
    strI "okbizaxis", strI "okhdfcbank"]) .wb)

/-- `\bUPI\b` flag i. -/
def upiWordRE : RE := wbdI "upi"

/-- `-(GPAY|PAYTM|YBL|OKAXIS|OKSBI|OKICICI|OKHDFCBANK)$` flag i (the suffix
strip in `getCategory` pass 2, line 305 — a shorter list than the
`cleanMerchantName` one). -/
def gcSuffixRE : RE :=
  .cat (chI '-') (.cat (altsI ["gpay", "paytm", "ybl", "okaxis", "oksbi",
    "okicici", "okhdfcbank"]) .eos)

/-- `[-_][A-Z0-9]{6,}$` flag i (line 306 — `{6,}` here, unlike the `{8,}`
in `cleanMerchantName`). -/
def gcTokenRE : RE :=
  .cat (clsOf ['-', '_']) (.cat (reRepAtLeast (.cls isAlnumI) 6) .eos)

/-- Pass-4 housing hint (line 330):
`flat|room|house|home|hostel|\bpg\b|plot|gala|office\s*rent` flag i. -/
def housingHintRE : RE :=
  reAlts [strI "flat", strI "room", strI "house", strI "home", strI "hostel",
    wbdI "pg", strI "plot", strI "gala", seqWsI "office" "rent"]

/-- Pass-4 cheque/transfer hint (line 333):
`\bchq\b|\bcheque\b|\bimps\b|\bclg\b|clearing` flag i. -/
def chequeHintRE : RE :=
  reAlts [wbdI "chq", wbdI "cheque", wbdI "imps", wbdI "clg", strI "clearing"]

def otherCat : Cat := ⟨"Other", "❓", "#9e9e9e"⟩
def upiTransferCat : Cat := ⟨"UPI Transfer", "📲", "#0288d1"⟩
def housingCat : Cat := ⟨"Housing & Rent", "🏠", "#795548"⟩
def transfersCat : Cat := ⟨"Transfers", "🔄", "#607d8b"⟩
def personalTransferCat : Cat := ⟨"Personal Transfer", "💸", "#0288d1"⟩

/-- First `CATEGORY_MAP` entry whose pattern matches `s`. -/
def catTableMatch (s : Str) : Option Cat :=
  (CATEGORY_MAP.find? (fun e => reTest e.1 s)).map (·.2)

/-- `rawDesc.split('@')[0]` then the three substitutions of pass 2
(lines 304–308). -/
def upiPayeeName (rawDesc : Str) : Str :=
  let vpa0 := rawDesc.takeWhile (fun c => c ≠ '@')
  let vpa1 := reReplaceFirst gcSuffixRE [] vpa0
  let vpa2 := reReplaceFirst gcTokenRE [] vpa1
  trim (vpa2.map fun c => if c = '_' ∨ c = '-' then ' ' else c)

/-- `getCategory` (lines 294–341): four-pass classification. -/
def getCategory (rawDesc : Str) (amount : Q) : Cat :=
  if rawDesc = [] then otherCat
  else
    match catTableMatch rawDesc with
    | some c => c
    | none =>
      if reTest UPI_VPA_RE rawDesc || reTest upiWordRE rawDesc then
        match catTableMatch (upiPayeeName rawDesc) with
        | some c => c
        | none => upiTransferCat
      else
        match catTableMatch (cleanMerchantName rawDesc) with
        | some c => c
        | none =>
          if (!Q.qeq amount (Q.ofInt 0)) && Q.qle (Q.ofInt 5000) amount then
            if jsRound amount % 500 = 0 then
              if reTest housingHintRE rawDesc then housingCat
              else if reTest chequeHintRE rawDesc then transfersCat
              else personalTransferCat
            else otherCat
          else otherCat

end StmtA

namespace StmtA

/-!
## Cross-file deduplication (`deduplicateData`, lines 415–440)

The JS `seen` map and `result` array share entry objects, so a later push to
`existing.__srcs` mutates the already-emitted entry.  The embedding carries
the growing entry list (`DItem`) and applies the final `__srcs` value when
producing the output, which is observationally the same because entries are
only ever extended, never read back, before the function returns.
-/

/-- `tx['__src'] || ''` (a file name; string-valued in the pipeline). -/
def getSrcStr (tx : Record) : Str :=
  match objGet tx (strL "__src") with
  | some (.vstr s) => s
  | _ => []

/-- `tx['__srcs'] ? [...tx['__srcs']] : (tx['__src'] ? [tx['__src']] : [])`
(line 434).  Spreading a non-empty string yields its one-character strings,
as the JS spread operator does. -/
def initSrcs (tx : Record) : List Str :=
  match objGet tx (strL "__srcs") with
  | some (.varr l) => l
  | some (.vstr s) =>
      if s ≠ [] then s.map (fun c => [c])
      else (if getSrcStr tx ≠ [] then [getSrcStr tx] else [])
  | none => if getSrcStr tx ≠ [] then [getSrcStr tx] else []

/-- The canonical date component of the dedup key. -/
def dedupDate (norm : Record) : Str := canonicalDate (getTxDate norm)

/-- `cleanMerchantName(getTxDesc(norm) || '').toLowerCase().trim()`. -/
def dedupDesc (norm : Record) : Str :=
  trim (toLower (cleanMerchantName (jvalToStr (getTxDesc norm))))

/-- `Math.round((parseAmount(getDebitAmt(norm) ?? getCreditAmt(norm)) ?? 0) * 100)`. -/
def dedupAmt (norm : Record) : ℤ :=
  jsRound ((match parseAmountV (match getDebitAmt norm with
      | some v => some v
      | none => getCreditAmt norm) with
    | some q => q
    | none => Q.ofInt 0).mulPow10 2)

def intStr (n : ℤ) : Str := (ToString.toString n).toList

/-- The dedup key string `` `${date}|${amt}|${desc}` `` (line 426), or `none`
when the skip branch (`!date && !desc`, line 425) applies. -/
def dedupKey (tx : Record) : Option Str :=
  if dedupDate (buildNorm tx) = [] ∧ dedupDesc (buildNorm tx) = [] then none
  else some (dedupDate (buildNorm tx) ++ strL "|" ++
    intStr (dedupAmt (buildNorm tx)) ++ strL "|" ++ dedupDesc (buildNorm tx))

/-- An output entry under construction: a skipped record pushed as-is, or a
keyed entry whose `__srcs` may still grow. -/
inductive DItem : Type where
  | plain (tx : Record)
  | keyed (key : Str) (tx : Record) (srcs : List Str)
deriving DecidableEq

def DItem.hasKey (k : Str) : DItem → Bool
  | .plain _ => false
  | .keyed k' _ _ => k' = k

/-- Append `src` to the `__srcs` of the entry with key `k` (unique among
keyed items by construction) if `src` is non-empty and not yet present. -/
def mergeSrc (k src : Str) : List DItem → List DItem
  | [] => []
  | .keyed k' tx srcs :: rest =>
      if k' = k then
        .keyed k' tx (if src ≠ [] ∧ src ∉ srcs then srcs ++ [src] else srcs) :: rest
      else .keyed k' tx srcs :: mergeSrc k src rest
  | it :: rest => it :: mergeSrc k src rest

def dedupGo : List Record → List DItem → List DItem
  | [], acc => acc
  | tx :: rest, acc =>
      match dedupKey tx with
      | none => dedupGo rest (acc ++ [.plain tx])
      | some k =>
          if acc.any (DItem.hasKey k) then dedupGo rest (mergeSrc k (getSrcStr tx) acc)
          else dedupGo rest (acc ++ [.keyed k tx (initSrcs tx)])

def DItem.finalize : DItem → Record
  | .plain tx => tx
  | .keyed _ tx srcs => objSet tx (strL "__srcs") (.varr srcs)

def deduplicateData (flat : List Record) : List Record :=
  (dedupGo flat []).map DItem.finalize

/-!
## Recurring/subscription detection (`detectRecurring`, lines 442–476)

Each grouped transaction is the spread `{...norm, _date, _amount}`; the extra
`_date`/`_amount` properties never collide with any column-resolution key or
prefix base, so the embedding keeps them as separate fields beside `norm`.
Group insertion order is modelled as JS object insertion order (the
array-index reordering JS applies to all-digit keys is not modelled; it can
permute the output order for all-digit merchant names but not the grouping).
-/

structure RTx : Type where
  norm : Record
  dt : Str
  amt : Option Q
deriving DecidableEq

/-- `norm['__srcs'] || (norm['__src'] ? [norm['__src']] : [])`. -/
def srcsOf (norm : Record) : List Str :=
  match objGet norm (strL "__srcs") with
  | some (.varr l) => l
  | some (.vstr s) =>
      if s ≠ []
      then [s]  -- truthy non-array `__srcs`: JS uses the value itself
      else (match objGet norm (strL "__src") with
            | some v => if jvalTruthy v then [jvalToStr v] else []
            | none => [])
  | none =>
      match objGet norm (strL "__src") with
      | some v => if jvalTruthy v then [jvalToStr v] else []
      | none => []

structure RecGroup : Type where
  description : Str
  rawDescription : Str
  isSubscription : Bool
  count : Nat
  total : Q
  lastDate : Str
  details : List (Str × Option Q × List Str)
deriving DecidableEq

/-- The recurring-amount read `parseAmount(getDebitAmt(x) ?? getCreditAmt(x))`. -/
def recAmt (norm : Record) : Option Q :=
  parseAmountV (match getDebitAmt norm with
    | some v => some v
    | none => getCreditAmt norm)

def detectRecurring (transactions : List Record) : List RecGroup :=
  let filtered := transactions.filter fun tx =>
    let norm := buildNorm tx
    jvalTruthy (getTxDesc norm) &&
      (match recAmt norm with | some q => Q.qlt (Q.ofInt 0) q | none => false)
  let grouped : List (Str × Str × List RTx) :=
    filtered.foldl (fun m tx =>
      let norm := buildNorm tx
      let rawDesc :=
        if jvalTruthy (getTxDesc norm) then jvalToStr (getTxDesc norm)
        else strL "Unknown"
      let groupKey := cleanMerchantName rawDesc
      let rtx : RTx := ⟨norm, getTxDate norm, recAmt norm⟩
      let m1 :=
        if m.any (fun e => e.1 = groupKey) then m
        else m ++ [(groupKey, rawDesc, [])]
      m1.map fun e =>
        if e.1 = groupKey then
          (e.1, (if isLikelySubscription rawDesc then rawDesc else e.2.1),
            e.2.2 ++ [rtx])
        else e) []
  (grouped.filter fun e => e.2.2.length > 1).map fun e =>
    let groupKey := e.1
    let rawDesc := e.2.1
    let txs := e.2.2
    { description := groupKey
      rawDescription := rawDesc
      isSubscription := isLikelySubscription rawDesc || isLikelySubscription groupKey
      count := txs.length
      total := txs.foldl (fun sum tx =>
        sum.add (match recAmt tx.norm with | some q => q | none => Q.ofInt 0))
        (Q.ofInt 0)
      lastDate := getTxDate (txs.getLastD ⟨[], [], none⟩).norm
      details := (txs.map fun tx =>
          (tx.dt, tx.amt, srcsOf tx.norm)).filter
        fun d => d.1 ≠ [] || d.2.1.isSome }

/-!
## Spreadsheet header-row discovery (`parseFileData`, lines 1240–1250)
-/

def expectedHeaderKeywords : List Str :=
  [strL "narration", strL "description", strL "desc", strL "amount",
   strL "withdrawal", strL "deposit", strL "date", strL "value",
   strL "transaction", strL "dr", strL "cr"]

/-- One row qualifies as the header row: a date-ish cell and an amount-ish
cell, or at least 3 of the expected keywords appearing (as substrings of the
normalized cells). -/
def rowQualifiesHeader (row : List Str) : Bool :=
  let cells := row.map normalizeKey
  let hasDate := cells.any fun c =>
    includes c (strL "date") || includes c (strL "value")
  let hasAmt := cells.any fun c =>
    includes c (strL "amount") || includes c (strL "withdrawal") ||
    includes c (strL "deposit") || includes c (strL "debit") ||
    includes c (strL "credit")
  let matchCount := (expectedHeaderKeywords.filter fun kw =>
    cells.any fun c => includes c kw).length
  (hasDate && hasAmt) || decide (3 ≤ matchCount)

/-- The header-discovery scan: index of the first qualifying row, or the
`HeaderNotFoundError` (`'Could not find header row in Excel file.'`). -/
def locateHeaderRow (rows : List (List Str)) : Except String Nat :=
  match rows.findIdx? rowQualifiesHeader with
  | some i => .ok i
  | none => .error "Could not find header row in Excel file."

/-!
## Multi-file union and the `allData` ledger (lines 1083–1086, 1378)
-/

/-- Loading a parsed file tags every row with its origin
(`{...tx, '__src': file.name, '__srcs': [file.name]}`). -/
def loadFile (name : Str) (rows : List Record) : List Record :=
  rows.map fun tx =>
    objSet (objSet tx (strL "__src") (.vstr name)) (strL "__srcs") (.varr [name])

/-- `allData`: the flattened union of the loaded files, deduplicated exactly
when more than one file is loaded. -/
def allData (files : List (Str × List Record)) : List Record :=
  let flat := files.flatMap fun f => loadFile f.1 f.2
  if 1 < files.length then deduplicateData flat else flat

end StmtA

namespace StmtA

/-!
## Theorems settling the claims
-/

/-- **C8**.  The extended date canonicalizer maps the ISO, slash-separated
day-first, and 2-digit-year day-first encodings of 25 April 2025 to the same
`DD/MM/YYYY` string `25/04/2025`. -/
theorem c8_canonicalDate_unifies_encodings :
    canonicalDate (strL "2025-04-25") = strL "25/04/2025" ∧
    canonicalDate (strL "25/04/2025") = strL "25/04/2025" ∧
    canonicalDate (strL "25-04-25") = strL "25/04/2025" := by
  refine ⟨by decide, by decide, by decide⟩

/-- A record with no date and no description column, as file `a.csv` tags it
after loading. -/
def blankRecA : Record :=
  [(strL "__src", .vstr (strL "a.csv")), (strL "__srcs", .varr [strL "a.csv"])]

/-- The same blank record as file `b.csv` tags it. -/
def blankRecB : Record :=
  [(strL "__src", .vstr (strL "b.csv")), (strL "__srcs", .varr [strL "b.csv"])]

/-- **C1**.  Two records whose resolved date and resolved description are both
empty are nevertheless merged by the deduplicator into a single ledger entry:
`cleanMerchantName('')` returns `'Unknown'`, so the skip guard
`!date && !desc` (line 425) never sees an empty description and both records
key to `"|0|unknown"`.  The claim (and the guard's own comment) say each such
record is appended as-is, which would give 2 output entries, not 1. -/
theorem c1_blank_records_are_merged :
    getTxDate (buildNorm blankRecA) = [] ∧
    jvalToStr (getTxDesc (buildNorm blankRecA)) = [] ∧
    getTxDate (buildNorm blankRecB) = [] ∧
    jvalToStr (getTxDesc (buildNorm blankRecB)) = [] ∧
    dedupKey blankRecA = some (strL "|0|unknown") ∧
    dedupKey blankRecB = some (strL "|0|unknown") ∧
    (deduplicateData [blankRecA, blankRecB]).length = 1 := by
  refine ⟨by decide, by decide, by decide, by decide, by decide, by decide, by decide⟩

end StmtA

namespace StmtA

/-- **C9**.  Amount parsing is total and never yields a non-finite number:
whenever `parseAmount` returns a value it is a finite rational (the `NaN` /
infinity constructors can never escape the finiteness guards), and the
representative inputs behave as specified: finite numbers pass through,
`NaN`, infinities, `Date`s, empty/blank strings, unparsable strings and
non-string non-number values all yield null, and comma-grouped decimal
strings parse.  (Being a Lean function, the embedding is total by
construction — the JS source likewise has no `throw` path.) -/
theorem c9_parseAmount_total_never_nan :
    (∀ (v : AVal) (j : JNum), parseAmount v = some j → ∃ q : Q, j = JNum.finite q) ∧
    parseAmount (.num .nan) = none ∧
    parseAmount (.num .inf) = none ∧
    parseAmount (.num .ninf) = none ∧
    parseAmount (.num (.finite ⟨5, 1⟩)) = some (.finite ⟨5, 1⟩) ∧
    parseAmount .date = none ∧
    parseAmount .other = none ∧
    parseAmount (.str (strL "")) = none ∧
    parseAmount (.str (strL "  ")) = none ∧
    parseAmount (.str (strL "1,234.50")) = some (.finite ⟨123450, 100⟩) ∧
    parseAmount (.str (strL "abc")) = none ∧
    parseAmount (.str (strL "Infinity")) = none := by
  refine ⟨?_, by decide, by decide, by decide, by decide, by decide, by decide,
    by decide, by decide, by decide, by decide, by decide⟩
  intro v j h
  cases v with
  | num jn =>
    cases jn with
    | finite q => simp [parseAmount, jnumIsFinite] at h; exact ⟨q, h.symm⟩
    | nan => simp [parseAmount, jnumIsFinite] at h
    | inf => simp [parseAmount, jnumIsFinite] at h
    | ninf => simp [parseAmount, jnumIsFinite] at h
  | date => simp [parseAmount] at h
  | str s =>
    simp only [parseAmount] at h
    split at h
    · exact absurd h (by simp)
    · cases hn : jsNumber (trim (s.filter (fun c => c ≠ ','))) with
      | finite q =>
        rw [hn] at h
        simp [jnumIsFinite] at h
        exact ⟨q, h.symm⟩
      | nan => rw [hn] at h; simp [jnumIsFinite] at h
      | inf => rw [hn] at h; simp [jnumIsFinite] at h
      | ninf => rw [hn] at h; simp [jnumIsFinite] at h
  | other => simp [parseAmount] at h

/-- Witness for C9: the totality statement applied to a concrete finite
input. -/
theorem c9_witness : ∃ q : Q, JNum.finite (⟨5, 1⟩ : Q) = JNum.finite q :=
  c9_parseAmount_total_never_nan.1 (.num (.finite ⟨5, 1⟩))
    (.finite ⟨5, 1⟩) (by decide)

theorem findIdx_append_first_true (p : Record → Bool) (l1 l2 : List Record)
    (x : Record) (h1 : ∀ a ∈ l1, p a = false) (hx : p x = true) :
    (l1 ++ x :: l2).findIdx? p = some l1.length := by
  induction l1 with
  | nil => simp [List.findIdx?_cons, hx]
  | cons a t ih =>
    have ha : p a = false := h1 a (by simp)
    have ht : ∀ b ∈ t, p b = false := fun b hb => h1 b (by simp [hb])
    simp [List.findIdx?_cons, ha, ih ht]

/-- **C5**.  The delimited-text parser truncates the (already normalized)
row sequence at the first summary/footer row: if none of the rows of `pre`
is a summary row and `srow`'s first non-empty value starts with
`"opening balance"` (case-folded), then parsing `pre ++ srow :: post`
yields exactly the normalized rows of `pre` — the summary row and
everything after it are discarded, so the output has `pre.length`
transactions, not `pre.length + 1`. -/
theorem c5_parseCSV_truncates_at_footer (pre post : List Record) (srow : Record)
    (hpre : ∀ r ∈ pre, isSummaryTx (buildNorm r) = false)
    (hs : startsWith (firstNonEmptyVal (buildNorm srow))
      (strL "opening balance") = true) :
    parseCSVRows (pre ++ srow :: post) = pre.map buildNorm ∧
    (parseCSVRows (pre ++ srow :: post)).length = pre.length := by
  have hsum : isSummaryTx (buildNorm srow) = true := by
    unfold isSummaryTx
    refine List.any_eq_true.mpr ⟨strL "opening balance", by decide, ?_⟩
    simp [hs]
  have hmap : (pre ++ srow :: post).map buildNorm
      = pre.map buildNorm ++ buildNorm srow :: post.map buildNorm := by simp
  have hidx : ((pre ++ srow :: post).map buildNorm).findIdx? isSummaryTx
      = some (pre.map buildNorm).length := by
    rw [hmap]
    exact findIdx_append_first_true _ _ _ _
      (fun a ha => by
        obtain ⟨r, hr, rfl⟩ := List.mem_map.mp ha
        exact hpre r hr) hsum
  have hres : parseCSVRows (pre ++ srow :: post) = pre.map buildNorm := by
    unfold parseCSVRows
    rw [hidx, hmap]
    exact List.take_left _ _
  exact ⟨hres, by rw [hres]; simp⟩

/-- Witness for C5: a two-row CSV followed by an `Opening Balance` footer row
and a trailing row parses to exactly the two data rows. -/
theorem c5_witness :
    parseCSVRows
      ([[(strL "Date", .vstr (strL "01/01/2025")),
         (strL "Narration", .vstr (strL "COFFEE")),
         (strL "Amount", .vstr (strL "10"))],
        [(strL "Date", .vstr (strL "02/01/2025")),
         (strL "Narration", .vstr (strL "TEA")),
         (strL "Amount", .vstr (strL "20"))]] ++
       [(strL "Date", .vstr (strL "Opening Balance: 1000"))] ::
        [[(strL "Date", .vstr (strL "03/01/2025"))]]) =
      [[(strL "Date", .vstr (strL "01/01/2025")),
         (strL "Narration", .vstr (strL "COFFEE")),
         (strL "Amount", .vstr (strL "10"))],
        [(strL "Date", .vstr (strL "02/01/2025")),
         (strL "Narration", .vstr (strL "TEA")),
         (strL "Amount", .vstr (strL "20"))]].map buildNorm :=
  (c5_parseCSV_truncates_at_footer _ _ _ (by decide) (by decide)).1

end StmtA

namespace StmtA

theorem findIdx_some_char (p : List Str → Bool) (l : List (List Str)) (i : Nat)
    (h : l.findIdx? p = some i) :
    i < l.length ∧ p (l.getD i []) = true ∧
      ∀ j, j < i → p (l.getD j []) = false := by
  induction l generalizing i with
  | nil => simp [List.findIdx?] at h
  | cons a t ih =>
    rw [List.findIdx?_cons] at h
    by_cases ha : p a
    · simp [ha] at h
      subst h
      exact ⟨by simp, by simpa using ha, fun j hj => by omega⟩
    · simp [ha] at h
      obtain ⟨i0, hi0, rfl⟩ := h
      obtain ⟨h1, h2, h3⟩ := ih i0 hi0
      refine ⟨by simpa using h1, by simpa using h2, ?_⟩
      intro j hj
      cases j with
      | zero => simpa using ha
      | succ j0 => simpa using h3 j0 (by omega)

/-- **C7**.  The spreadsheet header scan: the `HeaderNotFoundError` is raised
exactly when no row of the sheet qualifies as a header row
(`rowQualifiesHeader`: a date-like cell together with an amount-like cell, or
at least 3 keywords of the fixed set among the normalized cells), and
otherwise the first qualifying row is used: the returned index is in range,
its row qualifies, and every earlier row does not. -/
theorem c7_header_row_discovery (rows : List (List Str)) :
    (locateHeaderRow rows = .error "Could not find header row in Excel file."
      ↔ ∀ r ∈ rows, rowQualifiesHeader r = false) ∧
    (∀ i, locateHeaderRow rows = .ok i →
      i < rows.length ∧ rowQualifiesHeader (rows.getD i []) = true ∧
        ∀ j, j < i → rowQualifiesHeader (rows.getD j []) = false) := by
  constructor
  · unfold locateHeaderRow
    cases hidx : rows.findIdx? rowQualifiesHeader with
    | none =>
      simp only []
      constructor
      · intro _ r hr
        by_contra hq
        have : rows.findIdx? rowQualifiesHeader ≠ none := by
          intro hn
          rw [List.findIdx?_eq_none_iff] at hn
          exact hq (hn r hr)
        exact this hidx
      · intro _; trivial
    | some i =>
      simp only []
      constructor
      · intro h; exact absurd h (by simp)
      · intro hall
        have : rows.findIdx? rowQualifiesHeader = none :=
          List.findIdx?_eq_none_iff.mpr hall
        rw [this] at hidx
        exact absurd hidx (by simp)
  · intro i hok
    unfold locateHeaderRow at hok
    cases hidx : rows.findIdx? rowQualifiesHeader with
    | none => rw [hidx] at hok; exact absurd hok (by simp)
    | some i0 =>
      rw [hidx] at hok
      have : i0 = i := by simpa using hok
      subst this
      exact findIdx_some_char _ _ _ hidx

/-- The spec's worked header-discovery grid: two non-transaction rows, then
the real header at index 2. -/
def headerGrid : List (List Str) :=
  [[strL "", strL ""],
   [strL "Some Bank Statement"],
   [strL "Sl No", strL "Value Date", strL "Withdrawal Amt.",
    strL "Deposit Amt.", strL "Narration"]]

/-- Witness for C7: the discovery theorem applied to the concrete grid. -/
theorem c7_witness :
    2 < headerGrid.length ∧ rowQualifiesHeader (headerGrid.getD 2 []) = true ∧
      ∀ j, j < 2 → rowQualifiesHeader (headerGrid.getD j []) = false :=
  (c7_header_row_discovery headerGrid).2 2 (by rfl)

end StmtA

namespace StmtA

/-- The spec's recurring-grouping fixture: three raw descriptions of the same
biller with amounts 199, 199, 649 on three different dates. -/
def netflixTxs : List Record :=
  [[(strL "Date", .vstr (strL "01/01/2025")),
    (strL "Narration", .vstr (strL "NETFLIX.COM")),
    (strL "Amount", .vstr (strL "199"))],
   [(strL "Date", .vstr (strL "01/02/2025")),
    (strL "Narration", .vstr (strL "POS NETFLIX COM 998877")),
    (strL "Amount", .vstr (strL "199"))],
   [(strL "Date", .vstr (strL "01/03/2025")),
    (strL "Narration", .vstr (strL "UPI-NETFLIX@OKSBI")),
    (strL "Amount", .vstr (strL "649"))]]

/-- **C4**.  The recurring detector emits a group only when it has at least 2
members (every emitted group's `count` is at least 2), and the three Netflix
raw-description variants with amounts 199, 199, 649 on distinct dates
produce exactly one group, keyed by the canonical merchant `Netflix`, with
`count = 3` and `isSubscription = true`. -/
theorem c4_recurring_grouping :
    (∀ (txs : List Record) (g : RecGroup), g ∈ detectRecurring txs → 2 ≤ g.count) ∧
    (detectRecurring netflixTxs).length = 1 ∧
    ∀ g ∈ detectRecurring netflixTxs,
      g.description = strL "Netflix" ∧ g.count = 3 ∧ g.isSubscription = true := by
  refine ⟨?_, by decide, by decide⟩
  intro txs g hg
  unfold detectRecurring at hg
  obtain ⟨e, he, rfl⟩ := List.mem_map.mp hg
  have h2 := (List.mem_filter.mp he).2
  simp only [gt_iff_lt, decide_eq_true_eq] at h2
  simpa using h2

/-- Witness for C4: the at-least-2 bound applied to the concrete Netflix
group. -/
theorem c4_witness :
    2 ≤ ((detectRecurring netflixTxs).headD
      ⟨[], [], false, 0, Q.ofInt 0, [], []⟩).count :=
  c4_recurring_grouping.1 netflixTxs _ (by decide)

end StmtA

namespace StmtA

/-- **C3** (counterexample).  The merchant canonicalizer is NOT idempotent:
`"IMPS NEFT FOO"` cleans to `"NEFT FOO"` (the leading `IMPS` transaction-type
prefix is stripped), and cleaning that again strips the now-leading `NEFT`
prefix, giving `"FOO"`. -/
theorem c3_counterexample_not_idempotent :
    cleanMerchantName (strL "IMPS NEFT FOO") = strL "NEFT FOO" ∧
    cleanMerchantName (cleanMerchantName (strL "IMPS NEFT FOO")) = strL "FOO" ∧
    cleanMerchantName (cleanMerchantName (strL "IMPS NEFT FOO")) ≠
      cleanMerchantName (strL "IMPS NEFT FOO") := by
  refine ⟨by decide, by decide, by decide⟩

/-- The raw descriptions exercised by the spec's own examples. -/
def specTestedDescs : List Str :=
  [strL "NETFLIX.COM", strL "POS NETFLIX COM 998877", strL "UPI-NETFLIX@OKSBI",
   strL "SWIGGY ORDER #123", strL "NEFT-SELF-TRANSFER", strL "RENT PAYMENT"]

/-- **C3** (amended).  The canonicalizer is idempotent on its merchant-map
outputs (every canonical name of the map is a fixed point, so any
description canonicalized through the map stays stable) and on the raw
descriptions the spec's examples exercise — but not on every string, as the
counterexample shows. -/
theorem c3_amended_idempotent_on_tested :
    (∀ p ∈ MERCHANT_MAP, cleanMerchantName p.2 = p.2) ∧
    ∀ d ∈ specTestedDescs,
      cleanMerchantName (cleanMerchantName d) = cleanMerchantName d := by
  refine ⟨by decide, by decide⟩

/-- Witness for the amended C3: idempotence at `"NETFLIX.COM"`. -/
theorem c3_witness :
    cleanMerchantName (cleanMerchantName (strL "NETFLIX.COM")) =
      cleanMerchantName (strL "NETFLIX.COM") :=
  c3_amended_idempotent_on_tested.2 (strL "NETFLIX.COM") (by decide)

end StmtA

namespace StmtA

/-- **C6**.  The round-amount fallback of the classifier: for a non-empty
description that matches no category-table pattern on the raw text, the
UPI-extracted payee, or the canonicalized merchant, and that carries no UPI
marker, an amount of at least 5000 whose rounded value is a multiple of 500
classifies as Housing & Rent / Transfers / Personal Transfer according to the
housing and cheque keyword tests on the raw text; an amount below 5000, or
whose rounded value is not a multiple of 500, yields Other. -/
theorem c6_round_amount_fallback (d : Str) (amount : Q)
    (hne : d ≠ [])
    (hden : 0 < amount.den)
    (hraw : ∀ e ∈ CATEGORY_MAP, reTest e.1 d = false)
    (hvpa : reTest UPI_VPA_RE d = false)
    (hupi : reTest upiWordRE d = false)
    (_hpay : ∀ e ∈ CATEGORY_MAP, reTest e.1 (upiPayeeName d) = false)
    (hclean : ∀ e ∈ CATEGORY_MAP, reTest e.1 (cleanMerchantName d) = false) :
    ((Q.qle (Q.ofInt 5000) amount = true ∧ jsRound amount % 500 = 0) →
      getCategory d amount =
        (if reTest housingHintRE d then housingCat
         else if reTest chequeHintRE d then transfersCat
         else personalTransferCat)) ∧
    ((Q.qlt amount (Q.ofInt 5000) = true ∨ jsRound amount % 500 ≠ 0) →
      getCategory d amount = otherCat) := by
  have hfind : catTableMatch d = none := by
    unfold catTableMatch
    rw [List.find?_eq_none.mpr (fun e he => by simp [hraw e he])]
    rfl
  have hfindc : catTableMatch (cleanMerchantName d) = none := by
    unfold catTableMatch
    rw [List.find?_eq_none.mpr (fun e he => by simp [hclean e he])]
    rfl
  have hmain : getCategory d amount =
      (if (!Q.qeq amount (Q.ofInt 0)) && Q.qle (Q.ofInt 5000) amount then
        if jsRound amount % 500 = 0 then
          (if reTest housingHintRE d then housingCat
           else if reTest chequeHintRE d then transfersCat
           else personalTransferCat)
        else otherCat
      else otherCat) := by
    unfold getCategory
    simp [hne, hfind, hfindc, hvpa, hupi]
  have hden1 : (1 : ℤ) ≤ (amount.den : ℤ) := by exact_mod_cast hden
  constructor
  · rintro ⟨hge, hmod⟩
    have hq0 : Q.qeq amount (Q.ofInt 0) = false := by
      simp only [Q.qeq, Q.qle, Q.ofInt, decide_eq_true_eq] at hge ⊢
      simp only [decide_eq_false_iff_not]
      intro h0
      nlinarith [hge, h0]
    rw [hmain, hq0, hge]
    simp [hmod]
  · intro h
    rcases h with hlt | hmod
    · have hgef : Q.qle (Q.ofInt 5000) amount = false := by
        simp only [Q.qlt, Q.qle, Q.ofInt, decide_eq_true_eq] at hlt ⊢
        simp only [decide_eq_false_iff_not]
        omega
      rw [hmain, hgef]
      simp
    · by_cases hge : Q.qle (Q.ofInt 5000) amount
      · rw [hmain, hge]
        simp [hmod]
      · have hgef : Q.qle (Q.ofInt 5000) amount = false := by simpa using hge
        rw [hmain, hgef]
        simp

set_option maxRecDepth 40000 in
/-- Witness for C6: a description matching nothing, with the round amount
10000, classifies as Personal Transfer. -/
theorem c6_witness :
    getCategory (strL "XYZQW PQRS") ⟨10000, 1⟩ = personalTransferCat := by
  have h := (c6_round_amount_fallback (strL "XYZQW PQRS") ⟨10000, 1⟩
    (by decide) (by decide) (by decide) (by decide) (by decide) (by decide)
    (by decide)).1 ⟨by decide, by decide⟩
  have h2 : (if reTest housingHintRE (strL "XYZQW PQRS") then housingCat
      else if reTest chequeHintRE (strL "XYZQW PQRS") then transfersCat
      else personalTransferCat) = personalTransferCat := by decide
  exact h.trans h2

end StmtA

namespace StmtA

/-!
## Structural lemmas about records, loading, and deduplication

These support the multi-file claims: loading a file only appends the two
reserved `__src`/`__srcs` properties, and none of the column-resolution keys
or prefix bases can see them, so the dedup key of a loaded record is the
dedup key of the parsed row.
-/

/-- `{...tx, '__src': name, '__srcs': [name]}` for a single row. -/
def loadTx (name : Str) (tx : Record) : Record :=
  objSet (objSet tx (strL "__src") (.vstr name)) (strL "__srcs") (.varr [name])

theorem loadFile_eq_map (name : Str) (rows : List Record) :
    loadFile name rows = rows.map (loadTx name) := rfl

theorem objSet_fresh (l : Record) (k : Str) (v : JVal)
    (h : ∀ kv ∈ l, kv.1 ≠ k) : objSet l k v = l ++ [(k, v)] := by
  unfold objSet
  have : l.any (fun kv => kv.1 = k) = false := by
    simp only [List.any_eq_false]
    intro kv hkv
    simp [h kv hkv]
  rw [this]
  simp

theorem fst_objSet (l : Record) (k : Str) (v : JVal) :
    (objSet l k v).map (·.1) =
      if l.any (fun kv => kv.1 = k) then l.map (·.1) else l.map (·.1) ++ [k] := by
  unfold objSet
  split
  · simp only [List.map_map]
    apply List.map_congr_left
    intro kv _
    by_cases h : kv.1 = k <;> simp [h]
  · simp

/-- Every key of `buildNorm tx` is the normalization of some raw key. -/
theorem keys_foldl_objSet (l : List (Str × JVal)) (acc : Record) (k : Str)
    (hk : k ∈ (l.foldl (fun a kv =>
        objSet a (normalizeKey kv.1) (cleanString kv.2)) acc).map (·.1)) :
    k ∈ acc.map (·.1) ∨ k ∈ l.map (fun kv => normalizeKey kv.1) := by
  induction l generalizing acc with
  | nil => exact Or.inl (by rw [List.foldl_nil] at hk; exact hk)
  | cons kv t ih =>
    simp only [List.foldl_cons] at hk
    rcases ih _ hk with h | h
    · rw [fst_objSet] at h
      split at h
      · exact Or.inl h
      · rcases List.mem_append.mp h with h2 | h2
        · exact Or.inl h2
        · right
          rw [List.mem_singleton] at h2
          rw [List.map_cons, h2]
          exact List.mem_cons_self _ _
    · right
      rw [List.map_cons]
      exact List.mem_cons_of_mem _ h

theorem keys_buildNorm (tx : Record) (k : Str) (hk : k ∈ (buildNorm tx).map (·.1)) :
    k ∈ tx.map (fun kv => normalizeKey kv.1) := by
  rcases keys_foldl_objSet tx [] k hk with h | h
  · simp at h
  · exact h

/-- Under the well-formedness hypothesis (no raw key normalizes to a reserved
name), normalizing a loaded row appends the two reserved entries. -/
theorem buildNorm_loadTx (tx : Record) (name : Str)
    (hwf : ∀ kv ∈ tx, normalizeKey kv.1 ≠ strL "__src" ∧
      normalizeKey kv.1 ≠ strL "__srcs") :
    buildNorm (loadTx name tx) =
      buildNorm tx ++ [(strL "__src", cleanString (.vstr name)),
                       (strL "__srcs", .varr [name])] := by
  have hraw1 : ∀ kv ∈ tx, kv.1 ≠ strL "__src" := by
    intro kv hkv heq
    exact (hwf kv hkv).1 (by rw [heq]; decide)
  have h1 : objSet tx (strL "__src") (.vstr name) = tx ++ [(strL "__src", .vstr name)] :=
    objSet_fresh _ _ _ hraw1
  have hraw2 : ∀ kv ∈ tx ++ [(strL "__src", .vstr name)], kv.1 ≠ strL "__srcs" := by
    intro kv hkv
    rcases List.mem_append.mp hkv with h | h
    · intro heq
      exact (hwf kv h).2 (by rw [heq]; decide)
    · simp at h
      simp only [h]
      decide
  have h2 : loadTx name tx
      = tx ++ [(strL "__src", .vstr name), (strL "__srcs", .varr [name])] := by
    unfold loadTx
    rw [h1, objSet_fresh _ _ _ hraw2]
    simp
  rw [h2]
  unfold buildNorm
  rw [List.foldl_append]
  have hfresh1 : ∀ kv ∈ buildNorm tx, kv.1 ≠ strL "__src" := by
    intro kv hkv heq
    have := keys_buildNorm tx (strL "__src") (by
      rw [← heq]; exact List.mem_map_of_mem _ hkv)
    obtain ⟨kv0, hkv0, hk0⟩ := List.mem_map.mp this
    exact (hwf kv0 hkv0).1 hk0
  have hfresh2 : ∀ kv ∈ buildNorm tx ++ [(strL "__src", cleanString (.vstr name))],
      kv.1 ≠ strL "__srcs" := by
    intro kv hkv
    rcases List.mem_append.mp hkv with h | h
    · intro heq
      have := keys_buildNorm tx (strL "__srcs") (by
        rw [← heq]; exact List.mem_map_of_mem _ h)
      obtain ⟨kv0, hkv0, hk0⟩ := List.mem_map.mp this
      exact (hwf kv0 hkv0).2 hk0
    · simp at h
      simp only [h]
      decide
  show List.foldl _ (buildNorm tx) _ = _
  have e1 : normalizeKey (strL "__src") = strL "__src" := by decide
  have e2 : normalizeKey (strL "__srcs") = strL "__srcs" := by decide
  have e3 : cleanString (JVal.varr [name]) = .varr [name] := rfl
  simp only [List.foldl_cons, List.foldl_nil, e1, e2, e3]
  rw [objSet_fresh _ _ _ hfresh1, objSet_fresh _ _ _ hfresh2]
  simp only [List.append_assoc, List.singleton_append]
  rfl

end StmtA

namespace StmtA

theorem findSome?_ext {α β : Type} (f g : α → Option β) (l : List α)
    (h : ∀ a ∈ l, f a = g a) : l.findSome? f = l.findSome? g := by
  induction l with
  | nil => rfl
  | cons a t ih =>
    rw [List.findSome?_cons, List.findSome?_cons, h a (by simp)]
    cases g a with
    | some b => rfl
    | none => exact ih fun x hx => h x (by simp [hx])

theorem objGet_append_right_miss (norm extra : Record) (k : Str)
    (h : ∀ kv ∈ extra, kv.1 ≠ k) :
    objGet (norm ++ extra) k = objGet norm k := by
  unfold objGet
  rw [List.find?_append]
  have : extra.find? (fun kv => kv.1 = k) = none := by
    rw [List.find?_eq_none]
    intro kv hkv
    simp [h kv hkv]
  rw [this]
  cases norm.find? (fun kv => kv.1 = k) <;> rfl

theorem find?_prefix_append_miss (norm extra : Record) (base : Str)
    (h : ∀ kv ∈ extra, startsWith kv.1 base = false) :
    (norm ++ extra).find? (fun kv => startsWith kv.1 base)
      = norm.find? (fun kv => startsWith kv.1 base) := by
  rw [List.find?_append]
  have : extra.find? (fun kv => startsWith kv.1 base) = none := by
    rw [List.find?_eq_none]
    intro kv hkv
    simp [h kv hkv]
  rw [this]
  cases norm.find? (fun kv => startsWith kv.1 base) <;> rfl

/-- Appending the two reserved entries to a normalized record changes no
column resolution whose keys and prefix bases avoid the reserved names. -/
theorem findColVal_append_reserved (norm : Record) (v1 v2 : JVal) (keys : List Str)
    (h1 : ∀ k ∈ keys, strL "__src" ≠ k ∧ strL "__srcs" ≠ k)
    (h2 : ∀ k ∈ keys, startsWith (strL "__src") (keyBase k) = false ∧
      startsWith (strL "__srcs") (keyBase k) = false) :
    findColVal (norm ++ [(strL "__src", v1), (strL "__srcs", v2)]) keys
      = findColVal norm keys := by
  have hmiss : ∀ k ∈ keys, ∀ kv ∈ [(strL "__src", v1), (strL "__srcs", v2)],
      kv.1 ≠ k := by
    intro k hk kv hkv
    simp only [List.mem_cons, List.mem_singleton, List.not_mem_nil, or_false] at hkv
    rcases hkv with h | h
    · rw [h]; exact (h1 k hk).1
    · rw [h]; exact (h1 k hk).2
  have hbase : ∀ k ∈ keys, ∀ kv ∈ [(strL "__src", v1), (strL "__srcs", v2)],
      startsWith kv.1 (keyBase k) = false := by
    intro k hk kv hkv
    simp only [List.mem_cons, List.mem_singleton, List.not_mem_nil, or_false] at hkv
    rcases hkv with h | h
    · rw [h]; exact (h2 k hk).1
    · rw [h]; exact (h2 k hk).2
  unfold findColVal
  have e1 : keys.findSome? (fun k => objGet (norm ++ [(strL "__src", v1),
      (strL "__srcs", v2)]) k) = keys.findSome? (fun k => objGet norm k) :=
    findSome?_ext _ _ _ fun k hk =>
      objGet_append_right_miss _ _ _ (hmiss k hk)
  rw [e1]
  cases keys.findSome? (fun k => objGet norm k) with
  | some v => rfl
  | none =>
    exact findSome?_ext _ _ _ fun k hk => by
      rw [find?_prefix_append_miss _ _ _ (hbase k hk)]

/-- The dedup key of a loaded row is the dedup key of the parsed row: the
`__src`/`__srcs` tags are invisible to the date, description, and amount
resolution. -/
theorem dedupKey_loadTx (tx : Record) (name : Str)
    (hwf : ∀ kv ∈ tx, normalizeKey kv.1 ≠ strL "__src" ∧
      normalizeKey kv.1 ≠ strL "__srcs") :
    dedupKey (loadTx name tx) = dedupKey tx := by
  have hbn := buildNorm_loadTx tx name hwf
  have hdate : getTxDate (buildNorm (loadTx name tx)) = getTxDate (buildNorm tx) := by
    unfold getTxDate
    rw [hbn, findColVal_append_reserved _ _ _ _ (by decide) (by decide)]
  have hdesc : getTxDesc (buildNorm (loadTx name tx)) = getTxDesc (buildNorm tx) := by
    unfold getTxDesc
    rw [hbn, findColVal_append_reserved _ _ _ _ (by decide) (by decide)]
  have hdeb : getDebitAmt (buildNorm (loadTx name tx)) = getDebitAmt (buildNorm tx) := by
    unfold getDebitAmt
    rw [hbn, findColVal_append_reserved _ _ _ _ (by decide) (by decide)]
  have hcred : getCreditAmt (buildNorm (loadTx name tx)) = getCreditAmt (buildNorm tx) := by
    unfold getCreditAmt
    rw [hbn, findColVal_append_reserved _ _ _ _ (by decide) (by decide)]
  have hd1 : dedupDate (buildNorm (loadTx name tx)) = dedupDate (buildNorm tx) := by
    unfold dedupDate; rw [hdate]
  have hd2 : dedupDesc (buildNorm (loadTx name tx)) = dedupDesc (buildNorm tx) := by
    unfold dedupDesc; rw [hdesc]
  have hd3 : dedupAmt (buildNorm (loadTx name tx)) = dedupAmt (buildNorm tx) := by
    unfold dedupAmt; rw [hdeb, hcred]
  unfold dedupKey
  rw [hd1, hd2, hd3]

theorem find?_replace_self (l : Record) (k : Str) (v : JVal)
    (h : l.any (fun kv => kv.1 = k) = true) :
    (l.map (fun kv => if kv.1 = k then (k, v) else kv)).find?
      (fun kv => kv.1 = k) = some (k, v) := by
  induction l with
  | nil => simp at h
  | cons a t ih =>
    by_cases ha : a.1 = k
    · have e : (if a.1 = k then (k, v) else a) = (k, v) := by simp [ha]
      rw [List.map_cons, e, List.find?_cons]
      simp
    · have e : (if a.1 = k then (k, v) else a) = a := by simp [ha]
      rw [List.map_cons, e, List.find?_cons]
      have hd : (decide (a.1 = k)) = false := by simp [ha]
      rw [hd]
      apply ih
      rw [List.any_cons] at h
      have hd2 : (decide (a.1 = k)) = false := by simp [ha]
      rw [hd2, Bool.false_or] at h
      exact h
  
theorem objGet_objSet_self (l : Record) (k : Str) (v : JVal) :
    objGet (objSet l k v) k = some v := by
  unfold objGet objSet
  split
  · rename_i hany
    rw [find?_replace_self l k v hany]
    rfl
  · rw [List.find?_append]
    have : l.find? (fun kv => kv.1 = k) = none := by
      rw [List.find?_eq_none]
      intro kv hkv
      rename_i hany
      rw [Bool.not_eq_true, List.any_eq_false] at hany
      simpa using hany kv hkv
    rw [this, Option.none_or, List.find?_cons_of_pos _ (by simp)]
    rfl

theorem find?_replace_other (l : Record) (k k2 : Str) (v : JVal) (h : k2 ≠ k) :
    ((l.map (fun kv => if kv.1 = k then (k, v) else kv)).find?
      (fun kv => kv.1 = k2)).map (·.2)
      = (l.find? (fun kv => kv.1 = k2)).map (·.2) := by
  induction l with
  | nil => rfl
  | cons a t ih =>
    by_cases ha : a.1 = k
    · have e : (if a.1 = k then (k, v) else a) = (k, v) := by simp [ha]
      rw [List.map_cons, e, List.find?_cons, List.find?_cons]
      have e1 : (decide ((k, v).1 = k2)) = false := by simp [Ne.symm h]
      have e2 : (decide (a.1 = k2)) = false := by
        rw [ha]; simp [Ne.symm h]
      rw [e1, e2]
      exact ih
    · have e : (if a.1 = k then (k, v) else a) = a := by simp [ha]
      rw [List.map_cons, e, List.find?_cons, List.find?_cons]
      cases hd : decide (a.1 = k2)
      · exact ih
      · rfl

theorem objGet_objSet_other (l : Record) (k k2 : Str) (v : JVal)
    (h : k2 ≠ k) : objGet (objSet l k v) k2 = objGet l k2 := by
  unfold objGet objSet
  split
  · exact find?_replace_other l k k2 v h
  · rw [List.find?_append]
    have : [(k, v)].find? (fun kv => kv.1 = k2) = none := by
      simp [Ne.symm h]
    rw [this]
    cases l.find? (fun kv => kv.1 = k2) <;> rfl

theorem getSrcStr_loadTx (tx : Record) (name : Str) :
    getSrcStr (loadTx name tx) = name := by
  unfold getSrcStr loadTx
  rw [objGet_objSet_other _ _ _ _ (by decide), objGet_objSet_self]

theorem initSrcs_loadTx (tx : Record) (name : Str) :
    initSrcs (loadTx name tx) = [name] := by
  unfold initSrcs loadTx
  rw [objGet_objSet_self]

end StmtA

namespace StmtA

def DItem.srcsD : DItem → List Str
  | .plain _ => []
  | .keyed _ _ srcs => srcs


theorem dedupGo_cons_skip (tx : Record) (rest : List Record) (acc : List DItem)
    (h : dedupKey tx = none) :
    dedupGo (tx :: rest) acc = dedupGo rest (acc ++ [.plain tx]) := by
  simp [dedupGo, h]

theorem dedupGo_cons_merge (tx : Record) (rest : List Record) (acc : List DItem)
    (k : Str) (h : dedupKey tx = some k)
    (hmem : acc.any (DItem.hasKey k) = true) :
    dedupGo (tx :: rest) acc = dedupGo rest (mergeSrc k (getSrcStr tx) acc) := by
  simp [dedupGo, h, hmem]

theorem dedupGo_cons_new (tx : Record) (rest : List Record) (acc : List DItem)
    (k : Str) (h : dedupKey tx = some k)
    (hmem : acc.any (DItem.hasKey k) = false) :
    dedupGo (tx :: rest) acc
      = dedupGo rest (acc ++ [.keyed k tx (initSrcs tx)]) := by
  simp [dedupGo, h, hmem]

theorem dedupGo_append (xs ys : List Record) (acc : List DItem) :
    dedupGo (xs ++ ys) acc = dedupGo ys (dedupGo xs acc) := by
  induction xs generalizing acc with
  | nil => rfl
  | cons tx rest ih =>
    rw [List.cons_append]
    cases hdk : dedupKey tx with
    | none =>
      rw [dedupGo_cons_skip _ _ _ hdk, dedupGo_cons_skip _ _ _ hdk]
      exact ih _
    | some k =>
      cases hmem : acc.any (DItem.hasKey k) with
      | true =>
        rw [dedupGo_cons_merge _ _ _ _ hdk hmem, dedupGo_cons_merge _ _ _ _ hdk hmem]
        exact ih _
      | false =>
        rw [dedupGo_cons_new _ _ _ _ hdk hmem, dedupGo_cons_new _ _ _ _ hdk hmem]
        exact ih _

/-- Processing records whose keys are all present, pairwise distinct, and
absent from the accumulator: each one becomes a fresh keyed entry in order. -/
theorem dedupGo_fresh (xs : List Record) (acc : List DItem)
    (hnon : ∀ tx ∈ xs, dedupKey tx ≠ none)
    (hnd : (xs.map dedupKey).Nodup)
    (hdisj : ∀ tx ∈ xs, ∀ k, dedupKey tx = some k →
      ∀ it ∈ acc, it.hasKey k = false) :
    dedupGo xs acc = acc ++ xs.map (fun tx =>
      .keyed ((dedupKey tx).getD []) tx (initSrcs tx)) := by
  induction xs generalizing acc with
  | nil => simp [dedupGo]
  | cons tx rest ih =>
    obtain ⟨k, hk⟩ := Option.ne_none_iff_exists'.mp (hnon tx (by simp))
    have hnomem : acc.any (DItem.hasKey k) = false := by
      rw [List.any_eq_false]
      intro it hit
      simp [hdisj tx (by simp) k hk it hit]
    rw [dedupGo_cons_new _ _ _ _ hk hnomem]
    have hnd2 : (dedupKey tx :: rest.map dedupKey).Nodup := by
      rw [← List.map_cons]; exact hnd
    have hndr : (rest.map dedupKey).Nodup := (List.nodup_cons.mp hnd2).2
    have hhead : dedupKey tx ∉ rest.map dedupKey := (List.nodup_cons.mp hnd2).1
    have hdisj2 : ∀ t ∈ rest, ∀ k2, dedupKey t = some k2 →
        ∀ it ∈ acc ++ [DItem.keyed k tx (initSrcs tx)], it.hasKey k2 = false := by
      intro t ht k2 hk2 it hit
      rcases List.mem_append.mp hit with h | h
      · exact hdisj t (by simp [ht]) k2 hk2 it h
      · rw [List.mem_singleton] at h
        subst h
        simp only [DItem.hasKey, decide_eq_false_iff_not]
        intro hkk
        apply hhead
        rw [hkk] at hk
        rw [← hk2] at hk
        rw [hk]
        exact List.mem_map_of_mem _ ht
    have hih := ih (acc ++ [DItem.keyed k tx (initSrcs tx)])
      (fun t ht => hnon t (List.mem_cons_of_mem _ ht)) hndr hdisj2
    rw [hih]
    simp [hk]

/-- `mergeSrc` passes over items that do not carry the key. -/
theorem mergeSrc_append_miss (k src : Str) (l1 l2 : List DItem)
    (h : ∀ it ∈ l1, it.hasKey k = false) :
    mergeSrc k src (l1 ++ l2) = l1 ++ mergeSrc k src l2 := by
  induction l1 with
  | nil => rfl
  | cons it t ih =>
    have hit := h it (by simp)
    have ht : ∀ x ∈ t, x.hasKey k = false := fun x hx => h x (by simp [hx])
    cases it with
    | plain tx => simp [mergeSrc, ih ht]
    | keyed k2 tx srcs =>
      simp only [DItem.hasKey, decide_eq_false_iff_not] at hit
      simp [mergeSrc, hit, ih ht]

end StmtA

namespace StmtA

theorem mergeSrc_cons_hit (k src : Str) (tx : Record) (srcs : List Str)
    (rest : List DItem) :
    mergeSrc k src (.keyed k tx srcs :: rest)
      = .keyed k tx (if src ≠ [] ∧ src ∉ srcs then srcs ++ [src] else srcs)
        :: rest := by
  unfold mergeSrc
  simp

/-- A second pass of the same parsed rows, loaded under file name `n2`,
merges `n2` into every keyed entry the first pass (under `n1`) created, and
adds no entries. -/
theorem dedupGo_second (rows : List Record) (n1 n2 : Str) (done : List DItem)
    (hwf : ∀ r ∈ rows, ∀ kv ∈ r, normalizeKey kv.1 ≠ strL "__src" ∧
      normalizeKey kv.1 ≠ strL "__srcs")
    (hnon : ∀ r ∈ rows, dedupKey r ≠ none)
    (hnd : (rows.map dedupKey).Nodup)
    (hdone : ∀ r ∈ rows, ∀ k, dedupKey r = some k →
      ∀ it ∈ done, it.hasKey k = false) :
    dedupGo (loadFile n2 rows)
      (done ++ rows.map (fun r =>
        .keyed ((dedupKey r).getD []) (loadTx n1 r) [n1]))
      = done ++ rows.map (fun r =>
        .keyed ((dedupKey r).getD []) (loadTx n1 r)
          (if n2 ≠ [] ∧ n2 ∉ ([n1] : List Str) then [n1, n2] else [n1])) := by
  induction rows generalizing done with
  | nil => simp [loadFile, dedupGo]
  | cons r rest ih =>
    obtain ⟨k, hk⟩ := Option.ne_none_iff_exists'.mp (hnon r (by simp))
    have hwfr : ∀ kv ∈ r, normalizeKey kv.1 ≠ strL "__src" ∧
        normalizeKey kv.1 ≠ strL "__srcs" := fun kv hkv => hwf r (by simp) kv hkv
    have hload : dedupKey (loadTx n2 r) = some k := by
      rw [dedupKey_loadTx r n2 hwfr]; exact hk
    have hnd2 : (dedupKey r :: rest.map dedupKey).Nodup := by
      rw [← List.map_cons]; exact hnd
    have hndr : (rest.map dedupKey).Nodup := (List.nodup_cons.mp hnd2).2
    have hhead : dedupKey r ∉ rest.map dedupKey := (List.nodup_cons.mp hnd2).1
    have hgd : ((dedupKey r).getD [] : Str) = k := by rw [hk]; rfl
    have hmem : (done ++ (r :: rest).map (fun r =>
        DItem.keyed ((dedupKey r).getD []) (loadTx n1 r) [n1])).any
        (DItem.hasKey k) = true := by
      rw [List.any_eq_true]
      refine ⟨DItem.keyed ((dedupKey r).getD []) (loadTx n1 r) [n1], ?_, ?_⟩
      · apply List.mem_append.mpr
        right
        rw [List.map_cons]
        exact List.mem_cons_self _ _
      · simp [DItem.hasKey, hgd]
    have hstep : loadFile n2 (r :: rest)
        = loadTx n2 r :: loadFile n2 rest := by
      rw [loadFile_eq_map, List.map_cons, loadFile_eq_map]
    rw [hstep, dedupGo_cons_merge _ _ _ _ hload hmem]
    have hmerge : mergeSrc k (getSrcStr (loadTx n2 r))
        (done ++ (r :: rest).map (fun r =>
          DItem.keyed ((dedupKey r).getD []) (loadTx n1 r) [n1]))
        = (done ++ [DItem.keyed ((dedupKey r).getD []) (loadTx n1 r)
            (if n2 ≠ [] ∧ n2 ∉ ([n1] : List Str) then [n1, n2] else [n1])])
          ++ rest.map (fun r =>
            DItem.keyed ((dedupKey r).getD []) (loadTx n1 r) [n1]) := by
      have hdonemiss : ∀ it ∈ done, it.hasKey k = false :=
        fun it hit => hdone r (by simp) k hk it hit
      rw [List.map_cons, mergeSrc_append_miss _ _ _ _ hdonemiss,
        getSrcStr_loadTx, hgd, mergeSrc_cons_hit]
      rw [List.append_assoc, List.singleton_append]
      rfl
    rw [hmerge]
    have hdone2 : ∀ x ∈ rest, ∀ k2, dedupKey x = some k2 →
        ∀ it ∈ done ++ [DItem.keyed ((dedupKey r).getD []) (loadTx n1 r)
          (if n2 ≠ [] ∧ n2 ∉ ([n1] : List Str) then [n1, n2] else [n1])],
        it.hasKey k2 = false := by
      intro x hx k2 hk2 it hit
      rcases List.mem_append.mp hit with h | h
      · exact hdone x (by simp [hx]) k2 hk2 it h
      · rw [List.mem_singleton] at h
        subst h
        simp only [DItem.hasKey, decide_eq_false_iff_not]
        intro hkk
        apply hhead
        have hk12 : k = k2 := by rw [← hgd]; exact hkk
        rw [hk12] at hk
        rw [← hk2] at hk
        rw [hk]
        exact List.mem_map_of_mem _ hx
    have hih := ih (done ++ [DItem.keyed ((dedupKey r).getD []) (loadTx n1 r)
        (if n2 ≠ [] ∧ n2 ∉ ([n1] : List Str) then [n1, n2] else [n1])])
      (fun x hx kv hkv => hwf x (List.mem_cons_of_mem _ hx) kv hkv)
      (fun x hx => hnon x (List.mem_cons_of_mem _ hx))
      hndr hdone2
    rw [hih]
    simp

end StmtA

namespace StmtA

/-- A parsed row that appears twice in one file's content. -/
def dupRow : Record :=
  [(strL "Date", .vstr (strL "01/01/2025")),
   (strL "Narration", .vstr (strL "COFFEE SHOP X")),
   (strL "Amount", .vstr (strL "10"))]

/-- **C2** (counterexample).  For a file whose content parses to two
identical rows, loading it once yields a 2-transaction ledger (single-file
sets bypass deduplication), but loading the same content twice under two
different names yields a 1-entry ledger: deduplication also merges the
within-file duplicate, so the transaction counts differ (1 ≠ 2). -/
theorem c2_counterexample_duplicate_rows :
    (allData [(strL "a.csv", [dupRow, dupRow])]).length = 2 ∧
    (allData [(strL "a.csv", [dupRow, dupRow]),
              (strL "b.csv", [dupRow, dupRow])]).length = 1 := by
  refine ⟨by decide, by decide⟩

/-- **C2** (amended).  For parsed file content whose rows have pairwise
distinct (and present) dedup keys and no reserved column names, loading the
same content twice under two different non-empty file names yields a ledger
with the same transaction count as loading it once, and every entry's
`__srcs` is exactly `[n1, n2]` — both file names, in insertion order,
without duplicates. -/
theorem c2_amended_double_load (rows : List Record) (n1 n2 : Str)
    (h12 : n1 ≠ n2) (h2e : n2 ≠ [])
    (hwf : ∀ r ∈ rows, ∀ kv ∈ r, normalizeKey kv.1 ≠ strL "__src" ∧
      normalizeKey kv.1 ≠ strL "__srcs")
    (hnon : ∀ r ∈ rows, dedupKey r ≠ none)
    (hnd : (rows.map dedupKey).Nodup) :
    (allData [(n1, rows), (n2, rows)]).length
      = (allData [(n1, rows)]).length ∧
    ∀ e ∈ allData [(n1, rows), (n2, rows)],
      objGet e (strL "__srcs") = some (.varr [n1, n2]) := by
  have hcond : (n2 ≠ [] ∧ n2 ∉ ([n1] : List Str)) := by
    refine ⟨h2e, ?_⟩
    rw [List.mem_singleton]
    exact fun he => h12 (he.symm)
  have hflat : allData [(n1, rows), (n2, rows)]
      = deduplicateData (loadFile n1 rows ++ loadFile n2 rows) := by
    unfold allData
    simp
  have hAkeys : (loadFile n1 rows).map dedupKey = rows.map dedupKey := by
    rw [loadFile_eq_map, List.map_map]
    apply List.map_congr_left
    intro r hr
    exact dedupKey_loadTx r n1 (hwf r hr)
  have hphase1 : dedupGo (loadFile n1 rows) []
      = rows.map (fun r =>
        DItem.keyed ((dedupKey r).getD []) (loadTx n1 r) [n1]) := by
    rw [dedupGo_fresh (loadFile n1 rows) []
      (fun tx htx => ?_) (by rw [hAkeys]; exact hnd) (fun tx htx k hk it hit => by simp at hit)]
    · rw [loadFile_eq_map, List.map_map]
      rw [List.nil_append]
      apply List.map_congr_left
      intro r hr
      have e1 := dedupKey_loadTx r n1 (hwf r hr)
      have e2 := initSrcs_loadTx r n1
      simp only [Function.comp]
      rw [e1, e2]
    · rw [loadFile_eq_map] at htx
      obtain ⟨r, hr, rfl⟩ := List.mem_map.mp htx
      rw [dedupKey_loadTx r n1 (hwf r hr)]
      exact hnon r hr
  have hphase2 : dedupGo (loadFile n2 rows)
      (rows.map (fun r =>
        DItem.keyed ((dedupKey r).getD []) (loadTx n1 r) [n1]))
      = rows.map (fun r =>
        DItem.keyed ((dedupKey r).getD []) (loadTx n1 r) [n1, n2]) := by
    have h := dedupGo_second rows n1 n2 [] hwf hnon hnd
      (fun r hr k hk it hit => by simp at hit)
    rw [List.nil_append, List.nil_append] at h
    rw [h]
    apply List.map_congr_left
    intro r hr
    rw [if_pos hcond]
  have hout : allData [(n1, rows), (n2, rows)]
      = rows.map (fun r =>
        objSet (loadTx n1 r) (strL "__srcs") (.varr [n1, n2])) := by
    rw [hflat]
    unfold deduplicateData
    rw [dedupGo_append, hphase1, hphase2, List.map_map]
    apply List.map_congr_left
    intro r hr
    rfl
  constructor
  · rw [hout]
    have hone : allData [(n1, rows)] = loadFile n1 rows := by
      unfold allData
      simp
    rw [hone, loadFile_eq_map]
    simp
  · intro e he
    rw [hout] at he
    obtain ⟨r, hr, rfl⟩ := List.mem_map.mp he
    exact objGet_objSet_self _ _ _

/-- Witness for the amended C2: two distinct concrete rows loaded under two
file names. -/
theorem c2_witness :
    (allData [(strL "a.csv", [dupRow]), (strL "b.csv", [dupRow])]).length
      = (allData [(strL "a.csv", [dupRow])]).length :=
  (c2_amended_double_load [dupRow] (strL "a.csv") (strL "b.csv")
    (by decide) (by decide) (by decide) (by decide) (by decide)).1

end StmtA

namespace StmtA

/-- When the first entry carrying key `k` already contains `src` in its
source list, a repeat occurrence merges nothing: `mergeSrc` is the
identity. -/
theorem mergeSrc_no_new_src (k src : Str) (l : List DItem)
    (h : ∀ it ∈ l, it.hasKey k = true → src ∈ it.srcsD) :
    mergeSrc k src l = l := by
  induction l with
  | nil => rfl
  | cons it t ih =>
    have ht : ∀ x ∈ t, x.hasKey k = true → src ∈ x.srcsD :=
      fun x hx => h x (List.mem_cons_of_mem _ hx)
    cases it with
    | plain tx => simp [mergeSrc, ih ht]
    | keyed k2 tx srcs =>
      by_cases hk2 : k2 = k
      · have hsrc : src ∈ srcs := by
          have := h (.keyed k2 tx srcs) (List.mem_cons_self _ _)
          simp only [DItem.hasKey, DItem.srcsD] at this
          exact this (by simp [hk2])
        unfold mergeSrc
        rw [if_pos hk2]
        have hguard : ¬ (src ≠ [] ∧ src ∉ srcs) := by
          intro hg
          exact hg.2 hsrc
        rw [if_neg hguard]
      · simp [mergeSrc, hk2, ih ht]

/-- A row of a second loaded file, distinct from `dupRow`. -/
def otherRow : Record :=
  [(strL "Date", .vstr (strL "02/01/2025")),
   (strL "Narration", .vstr (strL "TEA HOUSE Y")),
   (strL "Amount", .vstr (strL "20"))]

/-- **C10**.  Deduplication collapses same-file duplicates: appending a
record whose dedup key was already taken, and whose origin file name is
already recorded on the first occurrence's `__srcs`, leaves the ledger
completely unchanged — no new entry, and nothing added to `__srcs`.
Concretely, with file `a.csv` parsing to two key-equal rows and `b.csv` to
one other row, the combined (deduplicated) ledger contains 1 entry
originating from `a.csv`, fewer than the 2 entries loading `a.csv` alone
produces. -/
theorem c10_same_file_duplicates_collapse (pre : List Record) (r2 : Record)
    (k : Str) (hk : dedupKey r2 = some k)
    (hseen : (dedupGo pre []).any (DItem.hasKey k) = true)
    (hsrc : ∀ it ∈ dedupGo pre [], it.hasKey k = true →
      getSrcStr r2 ∈ it.srcsD) :
    deduplicateData (pre ++ [r2]) = deduplicateData pre ∧
    ((allData [(strL "a.csv", [dupRow, dupRow]),
               (strL "b.csv", [otherRow])]).filter
      (fun e => getSrcStr e = strL "a.csv")).length = 1 ∧
    (allData [(strL "a.csv", [dupRow, dupRow])]).length = 2 := by
  refine ⟨?_, by decide, by decide⟩
  unfold deduplicateData
  rw [dedupGo_append]
  rw [dedupGo_cons_merge r2 [] (dedupGo pre []) k hk hseen]
  rw [mergeSrc_no_new_src k (getSrcStr r2) (dedupGo pre []) hsrc]
  rfl

/-- Witness for C10: the second copy of the duplicate row from the same
file adds nothing. -/
theorem c10_witness :
    deduplicateData (loadFile (strL "a.csv") [dupRow] ++ [loadTx (strL "a.csv") dupRow])
      = deduplicateData (loadFile (strL "a.csv") [dupRow]) :=
  (c10_same_file_duplicates_collapse (loadFile (strL "a.csv") [dupRow])
    (loadTx (strL "a.csv") dupRow) ((dedupKey (loadTx (strL "a.csv") dupRow)).getD [])
    (by decide) (by decide) (by decide)).1

end StmtA
